import Mathlib

/-!
# job-api: authorization, application lifecycle and listing logic

A shallow embedding of the handlers of the job-board REST API
(`src/handlers`, `src/middleware`, `src/models`, `src/main.go`).

* The relational store behind `config.DB` is a record of three row lists
  (`users`, `jobs`, `applications`); every GORM call of the handlers is a pure
  function on that record.
* A handler is a function from the request data it reads from `*gin.Context`
  and the store to the new store and the JSON response it writes.
* Go `int` is a 64-bit two's complement integer: it is an `Int` that is wrapped
  with `wrap64` after every arithmetic operation that can leave the range.
* Functions of external libraries whose result the handlers only branch on
  (`uuid.Parse`, the `url` and `email` validators, the token and password
  helpers of `utils`, the case mappings) are fields of `Env`.
-/

namespace JobApi

/-! ## Data model (`src/models`) -/

/-- A `uuid.UUID` value; `uuid.Nil` is `0`. -/
abbrev UUID := Nat

/-- The zero identifier `uuid.Nil`. -/
def uuidNil : UUID := 0

/-- A `time.Time` value; the zero time is `0`. -/
abbrev Time := Nat

/-- `models.UserRole` is a Go string type. -/
abbrev UserRole := String

def RoleApplicant : UserRole := "applicant"
def RoleCompany : UserRole := "company"

/-- `models.ApplicationStatus` is a Go string type. -/
abbrev ApplicationStatus := String

def StatusApplied : ApplicationStatus := "Applied"
def StatusReviewed : ApplicationStatus := "Reviewed"
def StatusInterview : ApplicationStatus := "Interview"
def StatusRejected : ApplicationStatus := "Rejected"
def StatusHired : ApplicationStatus := "Hired"

/-- A row of table `users` (`models.User`). -/
structure User where
  ID : UUID
  Name : String
  Email : String
  Password : String
  Role : UserRole
  CreatedAt : Time
  UpdatedAt : Time
deriving DecidableEq, Repr

/-- A row of table `jobs` (`models.Job` without its relationship fields, which
are not columns). -/
structure Job where
  ID : UUID
  Title : String
  Description : String
  Location : String
  CreatedBy : UUID
  CreatedAt : Time
  UpdatedAt : Time
deriving DecidableEq, Repr

/-- A row of table `applications` (`models.Application` without its
relationship fields). -/
structure Application where
  ID : UUID
  ApplicantID : UUID
  JobID : UUID
  ResumeLink : String
  CoverLetter : String
  Status : ApplicationStatus
  AppliedAt : Time
  CreatedAt : Time
  UpdatedAt : Time
deriving DecidableEq, Repr

/-- The five values of `models.ApplicationStatus`. -/
def validStatuses : List ApplicationStatus :=
  [StatusApplied, StatusReviewed, StatusInterview, StatusRejected, StatusHired]

/-- The Go zero value `models.User{}`. -/
def User.zero : User := ⟨uuidNil, "", "", "", "", 0, 0⟩

/-- The Go zero value `models.Job{}`. -/
def Job.zero : Job := ⟨uuidNil, "", "", "", uuidNil, 0, 0⟩

/-- The hook `(u *User) BeforeCreate`: a nil identifier is replaced by
`uuid.New()`, here `fresh`. -/
def User.BeforeCreate (u : User) (fresh : UUID) : User :=
  if u.ID = uuidNil then { u with ID := fresh } else u

/-- The hook `(j *Job) BeforeCreate`. -/
def Job.BeforeCreate (j : Job) (fresh : UUID) : Job :=
  if j.ID = uuidNil then { j with ID := fresh } else j

/-- The hook `(a *Application) BeforeCreate`: a nil identifier is replaced by
`uuid.New()`, a zero `AppliedAt` by `time.Now()`. -/
def Application.BeforeCreate (a : Application) (fresh : UUID) (now : Time) : Application :=
  let a := if a.ID = uuidNil then { a with ID := fresh } else a
  if a.AppliedAt = 0 then { a with AppliedAt := now } else a

/-- The database behind `config.DB`: the rows of the three tables, in the
order in which a scan of the table returns them. -/
structure Store where
  users : List User
  jobs : List Job
  applications : List Application
deriving DecidableEq, Repr

/-! ## External collaborators -/

/-- The claims pair `utils.ValidateJWT` returns: `claims.UserID`, `claims.Role`. -/
structure Claims where
  UserID : UUID
  Role : String
deriving DecidableEq, Repr

/-- How the schema treats the references `jobs.created_by`,
`applications.applicant_id` and `applications.job_id`: not constrained at all,
or a foreign key that restricts or cascades the deletion of a referenced row.
The handlers do not choose; it is fixed by the migration. -/
inductive FKMode
  | unconstrained
  | restrict
  | cascade
deriving DecidableEq, Repr

/-- Library functions and deployment facts the handlers depend on. -/
structure Env where
  /-- Models `uuid.Parse`: the identifier, or `none` when it returns an error. -/
  uuidParse : String → Option UUID
  /-- The `url` rule of the validator. -/
  isURL : String → Bool
  /-- The `email` rule of the validator. -/
  isEmail : String → Bool
  /-- Models `utils.ValidateJWT`: the claims, or `none` when it returns an error. -/
  ValidateJWT : String → Option Claims
  /-- Models `utils.GenerateJWT`. -/
  GenerateJWT : UUID → String → Option String
  /-- Models `utils.HashPassword`. -/
  HashPassword : String → Option String
  /-- Models `utils.CheckPasswordHash`. -/
  CheckPasswordHash : String → String → Bool
  /-- Models `unicode.IsUpper`, `unicode.IsLower`, `unicode.IsDigit`. -/
  isUpper : Char → Bool
  isLower : Char → Bool
  isDigit : Char → Bool
  /-- Models `strings.ToLower`. -/
  ToLower : String → String
  /-- The SQL function `LOWER` of the database. -/
  sqlLower : String → String
  /-- The referential policy of the schema. -/
  fk : FKMode

/-! ## Responses (`src/models/response.go`) -/

/-- The text of an `err.Error()` placed in `Errors`, kept symbolic when a
library produces it. -/
inductive ErrText
  /-- A string literal of the handler. -/
  | lit (s : String)
  /-- The error of `c.ShouldBindJSON`. -/
  | bind
  /-- The error of `utils.ValidateStruct`: the failed (field, rule) pairs. -/
  | validation (failed : List (String × String))
  /-- An error returned by the database. -/
  | db
  /-- An error of a helper of `utils` (token, password hash). -/
  | util
deriving DecidableEq, Repr

/-- JSON of a `models.Job` with its `Creator` relationship as loaded. -/
structure JobJSON where
  job : Job
  Creator : User
deriving DecidableEq, Repr

/-- JSON of a `models.Application` with its relationships as loaded. -/
structure ApplicationJSON where
  application : Application
  Applicant : User
  Job : JobJSON
deriving DecidableEq, Repr

/-- The local type `ApplicationResponse` of `GetMyApplications`. -/
structure MyApplicationResponse where
  ID : UUID
  JobTitle : String
  CompanyName : String
  Status : String
  AppliedAt : Time
deriving DecidableEq, Repr

/-- The local type `ApplicationResponse` of `GetJobApplications`. -/
structure JobApplicationResponse where
  ID : UUID
  ApplicantName : String
  ResumeLink : String
  CoverLetter : String
  Status : String
  AppliedAt : Time
deriving DecidableEq, Repr

/-- The value of the `object` field of a response. -/
inductive Payload
  | null
  | user (u : User)
  /-- The object of `Login`: the token and the user's `id`, `name`, `email`, `role`. -/
  | login (token : String) (id : UUID) (name email : String) (role : UserRole)
  | job (j : JobJSON)
  | jobs (js : List JobJSON)
  | application (a : ApplicationJSON)
  | myApplications (as : List MyApplicationResponse)
  | jobApplications (as : List JobApplicationResponse)
deriving DecidableEq, Repr

/-- The three extra fields of `models.PaginatedResponse`. -/
structure PageInfo where
  PageNumber : Int
  PageSize : Int
  TotalSize : Int
deriving DecidableEq, Repr

/-- What `c.JSON(status, ...)` writes: the HTTP status and the body, a
`models.BaseResponse` (`page = none`) or a `models.PaginatedResponse`. -/
structure Response where
  status : Nat
  Success : Bool
  Message : String
  Object : Payload
  Errors : List ErrText
  page : Option PageInfo
deriving DecidableEq, Repr

/-- A failure response: `BaseResponse` with `Success: false`, `Object: nil`. -/
def fail (status : Nat) (message : String) (errors : List ErrText) : Response :=
  ⟨status, false, message, Payload.null, errors, none⟩

/-- A success response: `BaseResponse` with `Success: true`. -/
def ok (status : Nat) (message : String) (object : Payload) : Response :=
  ⟨status, true, message, object, [], none⟩

/-- A success response of a listing: `PaginatedResponse`. -/
def okPage (message : String) (object : Payload) (page pageSize total : Int) : Response :=
  ⟨200, true, message, object, [], some ⟨page, pageSize, total⟩⟩

/-! ## The request data a handler reads from `*gin.Context` -/

/-- The parts of `*gin.Context` the handlers read, with the two values the
model-hooks draw from outside (`uuid.New()`, `time.Now()`). -/
structure Ctx where
  /-- The path parameter `c.Param("id")`. -/
  id : String
  /-- The query string: `none` for an absent key. -/
  query : String → Option String
  /-- The value stored under `"user_id"` by `AuthMiddleware`. -/
  user_id : UUID
  /-- The identifier `uuid.New()` returns in a `BeforeCreate` hook. -/
  fresh : UUID
  /-- The value of `time.Now()`. -/
  now : Time

/-- The method `c.Query(key)`: the value, or the empty string. -/
def Ctx.Query (c : Ctx) (key : String) : String :=
  (c.query key).getD ""

/-- The method `c.DefaultQuery(key, defaultValue)`. -/
def Ctx.DefaultQuery (c : Ctx) (key defaultValue : String) : String :=
  (c.query key).getD defaultValue

/-! ## Database operations (the GORM calls of the handlers) -/

/-- The call `config.DB.First(&job, id)`: the row of `jobs` with that primary key. -/
def Store.firstJob (s : Store) (id : UUID) : Option Job :=
  s.jobs.find? (fun j => j.ID = id)

/-- The call `config.DB.First(&application, id)` on table `applications`. -/
def Store.firstApplication (s : Store) (id : UUID) : Option Application :=
  s.applications.find? (fun a => a.ID = id)

/-- The row of `users` with that primary key. -/
def Store.firstUser (s : Store) (id : UUID) : Option User :=
  s.users.find? (fun u => u.ID = id)

/-- The relationship a `Preload("Creator")` or `Preload("Applicant")` fills in:
the referenced user, or the zero value when there is none. -/
def Store.preloadUser (s : Store) (id : UUID) : User :=
  (s.firstUser id).getD User.zero

/-- The relationship `Preload("Job")` fills in: the referenced job, or the zero
value when there is none. -/
def Store.preloadJob (s : Store) (id : UUID) : Job :=
  (s.firstJob id).getD Job.zero

/-- The query `Where("applicant_id = ? AND job_id = ?", a, j).First(&existing)`. -/
def Store.firstApplicationOf (s : Store) (applicantID jobID : UUID) : Option Application :=
  s.applications.find? (fun a => a.ApplicantID = applicantID ∧ a.JobID = jobID)

/-- Whether the references of a new application row are accepted by the schema. -/
def Store.applicationRefsOk (s : Store) (fk : FKMode) (a : Application) : Bool :=
  match fk with
  | FKMode.unconstrained => true
  | _ => (s.firstUser a.ApplicantID).isSome && (s.firstJob a.JobID).isSome

/-- The call `config.DB.Create(&application)`: the `BeforeCreate` hook of
`models.Application`, the timestamps GORM sets, and the insert, which the
database refuses (`none`) on a primary key that is already present or a broken
reference. The result carries the row as inserted. -/
def Store.createApplication (s : Store) (fk : FKMode) (fresh : UUID) (now : Time)
    (a : Application) : Option (Store × Application) :=
  let a := { a.BeforeCreate fresh now with CreatedAt := now, UpdatedAt := now }
  if (s.firstApplication a.ID).isSome then none
  else if s.applicationRefsOk fk a then
    some ({ s with applications := s.applications ++ [a] }, a)
  else none

/-- The call `config.DB.Create(&job)`, with the `BeforeCreate` hook of `models.Job`. -/
def Store.createJob (s : Store) (fk : FKMode) (fresh : UUID) (now : Time)
    (j : Job) : Option (Store × Job) :=
  let j := { j.BeforeCreate fresh with CreatedAt := now, UpdatedAt := now }
  if (s.firstJob j.ID).isSome then none
  else if fk = FKMode.unconstrained ∨ (s.firstUser j.CreatedBy).isSome then
    some ({ s with jobs := s.jobs ++ [j] }, j)
  else none

/-- The call `config.DB.Create(&user)`, with the `BeforeCreate` hook of
`models.User` and the `unique` constraint on `email`. -/
def Store.createUser (s : Store) (fresh : UUID) (now : Time) (u : User) : Option (Store × User) :=
  let u := { u.BeforeCreate fresh with CreatedAt := now, UpdatedAt := now }
  if (s.firstUser u.ID).isSome then none
  else if (s.users.find? (fun x => x.Email = u.Email)).isSome then none
  else some ({ s with users := s.users ++ [u] }, u)

/-- The call `config.DB.Save(&job)` for a job read from the store (its primary
key is set): every column of the row with that primary key is written,
`updated_at` is set. -/
def Store.saveJob (s : Store) (now : Time) (j : Job) : Store :=
  { s with jobs := s.jobs.map (fun x => if x.ID = j.ID then { j with UpdatedAt := now } else x) }

/-- The call `config.DB.Save(&application)` for an application read from the
store (its primary key is set): the row with that primary key is rewritten. -/
def Store.saveApplication (s : Store) (now : Time) (a : Application) : Store :=
  { s with applications :=
      s.applications.map (fun x => if x.ID = a.ID then { a with UpdatedAt := now } else x) }

/-- The call `config.DB.Delete(&job)`: the row is removed; under a restricting
foreign key the database refuses (`none`) while an application refers to it,
under a cascading one those applications go with it. -/
def Store.deleteJob (s : Store) (fk : FKMode) (j : Job) : Option Store :=
  match fk with
  | FKMode.unconstrained => some { s with jobs := s.jobs.filter (fun x => x.ID ≠ j.ID) }
  | FKMode.restrict =>
    if s.applications.any (fun a => a.JobID = j.ID) then none
    else some { s with jobs := s.jobs.filter (fun x => x.ID ≠ j.ID) }
  | FKMode.cascade =>
    some { s with jobs := s.jobs.filter (fun x => x.ID ≠ j.ID),
                  applications := s.applications.filter (fun a => a.JobID ≠ j.ID) }

/-! ## Request bodies and their validation (`validate` struct tags) -/

structure ApplyJobRequest where
  ResumeLink : String
  CoverLetter : String
deriving DecidableEq, Repr

structure UpdateApplicationStatusRequest where
  Status : ApplicationStatus
deriving DecidableEq, Repr

structure CreateJobRequest where
  Title : String
  Description : String
  Location : String
deriving DecidableEq, Repr

structure UpdateJobRequest where
  Title : String
  Description : String
  Location : String
deriving DecidableEq, Repr

structure SignupRequest where
  Name : String
  Email : String
  Password : String
  Role : UserRole
deriving DecidableEq, Repr

structure LoginRequest where
  Email : String
  Password : String
deriving DecidableEq, Repr

/-- The rules of one field, in tag order: the validator reports the first rule
that does not hold, as the pair (field, rule). -/
def checkField (field : String) : List (String × Bool) → List (String × String)
  | [] => []
  | (rule, holds) :: rest => if holds then checkField field rest else [(field, rule)]

/-- The function `containsUppercase` of `src/utils/validation.go`. -/
def containsUppercase (env : Env) (s : String) : Bool := s.toList.any env.isUpper

/-- The function `containsLowercase`. -/
def containsLowercase (env : Env) (s : String) : Bool := s.toList.any env.isLower

/-- The function `containsDigit`. -/
def containsDigit (env : Env) (s : String) : Bool := s.toList.any env.isDigit

/-- The characters of the class in the regular expression of `containsSpecial`. -/
def specialChars : List Char :=
  "!@#$%^&*()_+-=[]\x7b\x7d;\x27:\"\\|,.<>/?".toList

/-- The function `containsSpecial`: some character is in the class. -/
def containsSpecial (s : String) : Bool := s.toList.any (fun ch => specialChars.contains ch)

/-- The function `isAlpha`, registered as rule `alpha`: the whole string matches
`^[a-zA-Z\s]+$`, where `\s` is a tab, line feed, form feed, carriage return or
space. -/
def isAlpha (s : String) : Bool :=
  !s.toList.isEmpty &&
  s.toList.all (fun ch =>
    ('a' ≤ ch ∧ ch ≤ 'z') ∨ ('A' ≤ ch ∧ ch ≤ 'Z') ∨
    ch = '\t' ∨ ch = '\n' ∨ ch = '\x0c' ∨ ch = '\r' ∨ ch = ' ')

/-- The call `utils.ValidateStruct(req)` for `ApplyJobRequest`: the failed
(field, rule) pairs, empty when it returns `nil`. -/
def ApplyJobRequest.ValidateStruct (env : Env) (r : ApplyJobRequest) : List (String × String) :=
  checkField "ResumeLink" [("required", r.ResumeLink ≠ ""), ("url", env.isURL r.ResumeLink)] ++
  checkField "CoverLetter" [("max", r.CoverLetter.length ≤ 200)]

/-- The call `utils.ValidateStruct(req)` for `UpdateApplicationStatusRequest`:
`required,oneof=Applied Reviewed Interview Rejected Hired`. -/
def UpdateApplicationStatusRequest.ValidateStruct (r : UpdateApplicationStatusRequest) :
    List (String × String) :=
  checkField "Status" [("required", r.Status ≠ ""),
    ("oneof", ["Applied", "Reviewed", "Interview", "Rejected", "Hired"].contains r.Status)]

/-- The call `utils.ValidateStruct(req)` for `CreateJobRequest`. -/
def CreateJobRequest.ValidateStruct (r : CreateJobRequest) : List (String × String) :=
  checkField "Title" [("required", r.Title ≠ ""), ("min", 1 ≤ r.Title.length),
    ("max", r.Title.length ≤ 100)] ++
  checkField "Description" [("required", r.Description ≠ ""), ("min", 20 ≤ r.Description.length),
    ("max", r.Description.length ≤ 2000)]

/-- The call `utils.ValidateStruct(req)` for `UpdateJobRequest`. -/
def UpdateJobRequest.ValidateStruct (r : UpdateJobRequest) : List (String × String) :=
  checkField "Title" [("required", r.Title ≠ ""), ("min", 1 ≤ r.Title.length),
    ("max", r.Title.length ≤ 100)] ++
  checkField "Description" [("required", r.Description ≠ ""), ("min", 20 ≤ r.Description.length),
    ("max", r.Description.length ≤ 2000)]

/-- The call `utils.ValidateStruct(req)` for `SignupRequest`. -/
def SignupRequest.ValidateStruct (env : Env) (r : SignupRequest) : List (String × String) :=
  checkField "Name" [("required", r.Name ≠ ""), ("alpha", isAlpha r.Name)] ++
  checkField "Email" [("required", r.Email ≠ ""), ("email", env.isEmail r.Email)] ++
  checkField "Password" [("required", r.Password ≠ ""), ("min", 8 ≤ r.Password.length),
    ("containsuppercase", containsUppercase env r.Password),
    ("containslowercase", containsLowercase env r.Password),
    ("containsdigit", containsDigit env r.Password),
    ("containsspecial", containsSpecial r.Password)] ++
  checkField "Role" [("required", r.Role ≠ ""), ("oneof", ["applicant", "company"].contains r.Role)]

/-- The call `utils.ValidateStruct(req)` for `LoginRequest`. -/
def LoginRequest.ValidateStruct (env : Env) (r : LoginRequest) : List (String × String) :=
  checkField "Email" [("required", r.Email ≠ ""), ("email", env.isEmail r.Email)] ++
  checkField "Password" [("required", r.Password ≠ "")]

/-! ## `strconv.Atoi` and the paging prologue -/

/-- The two errors of package `strconv`. -/
inductive NumError
  | invalid
  | range
deriving DecidableEq, Repr

/-- The digit loop of `strconv.ParseUint(s, 10, 64)`, `n` being the value read
so far: a character that is no decimal digit is an invalid-input error with
value 0; a value above `2^64 - 1` is a range error with value `2^64 - 1`. -/
def parseUintLoop : List Char → Nat → Nat × Option NumError
  | [], n => (n, none)
  | c :: cs, n =>
    if '0' ≤ c ∧ c ≤ '9' then
      if n ≥ (2 ^ 64 - 1) / 10 + 1 then (2 ^ 64 - 1, some NumError.range)
      else
        let n1 := n * 10 + (c.toNat - '0'.toNat)
        if n1 > 2 ^ 64 - 1 then (2 ^ 64 - 1, some NumError.range)
        else parseUintLoop cs n1
    else (0, some NumError.invalid)

/-- Go `strconv.ParseUint(s, 10, 64)`. -/
def ParseUint (s : List Char) : Nat × Option NumError :=
  match s with
  | [] => (0, some NumError.invalid)
  | _ => parseUintLoop s 0

/-- Go `strconv.ParseInt(s, 10, 0)` on a 64-bit platform: an optional sign, then
`ParseUint`; a magnitude out of range gives the nearest bound with a range error. -/
def ParseInt (s : List Char) : Int × Option NumError :=
  match s with
  | [] => (0, some NumError.invalid)
  | c :: rest =>
    let neg : Bool := c = '-'
    let digits := if c = '+' ∨ c = '-' then rest else s
    match ParseUint digits with
    | (_, some NumError.invalid) => (0, some NumError.invalid)
    | (un, _) =>
      if !neg ∧ un ≥ 2 ^ 63 then (2 ^ 63 - 1, some NumError.range)
      else if neg ∧ un > 2 ^ 63 then (-(2 ^ 63), some NumError.range)
      else (if neg then -(un : Int) else (un : Int), none)

/-- Go `strconv.Atoi` with a 64-bit `int`. Its fast path for short strings
returns what `ParseInt(s, 10, 0)` returns, which is the general path. -/
def Atoi (s : String) : Int × Option NumError := ParseInt s.toList

/-- The value a Go `int` holds after an arithmetic result `x`: `x` reduced to
the 64-bit two's complement range. -/
def wrap64 (x : Int) : Int := (x + 2 ^ 63) % 2 ^ 64 - 2 ^ 63

/-- The variables `page`, `pageSize` and `offset` after the prologue that
`BrowseJobs`, `GetMyJobs`, `GetMyApplications` and `GetJobApplications` share. -/
structure Paging where
  page : Int
  pageSize : Int
  offset : Int
deriving DecidableEq, Repr

/-- The prologue of the four listing handlers:
`page, _ := strconv.Atoi(c.DefaultQuery("page", "1"))`,
`pageSize, _ := strconv.Atoi(c.DefaultQuery("page_size", "10"))`,
`if page < 1 { page = 1 }`, `if pageSize < 1 { pageSize = 10 }`,
`offset := (page - 1) * pageSize`. -/
def paging (c : Ctx) : Paging :=
  let page := (Atoi (c.DefaultQuery "page" "1")).1
  let pageSize := (Atoi (c.DefaultQuery "page_size" "10")).1
  let page := if page < 1 then 1 else page
  let pageSize := if pageSize < 1 then 10 else pageSize
  let offset := wrap64 ((page - 1) * pageSize)
  ⟨page, pageSize, offset⟩

/-- The clause `.Offset(offset).Limit(limit)` as GORM renders it: `OFFSET` is
emitted only for a positive offset, `LIMIT` only for a non-negative limit. -/
def offsetLimit {α : Type} (offset limit : Int) (rows : List α) : List α :=
  let rows := if offset > 0 then rows.drop offset.toNat else rows
  if limit ≥ 0 then rows.take limit.toNat else rows

/-- The SQL predicate `text LIKE pattern` (first argument the pattern): `%`
matches any run of characters, `_` any one character, a backslash makes the
next pattern character literal. A pattern that ends in a lone backslash does
not arise here, since every pattern of `BrowseJobs` ends in `%`; it matches
nothing. -/
def likeMatch : List Char → List Char → Bool
  | [], t => t.isEmpty
  | c :: p, t =>
    if c = '%' then t.tails.any (fun u => likeMatch p u)
    else if c = '_' then
      match t with
      | [] => false
      | _ :: t1 => likeMatch p t1
    else if c = '\\' then
      match p, t with
      | e :: p1, x :: t1 => x = e && likeMatch p1 t1
      | _, _ => false
    else
      match t with
      | [] => false
      | x :: t1 => x = c && likeMatch p t1

/-- The condition `LOWER(column) LIKE ?` with argument
`"%"+strings.ToLower(filter)+"%"`. -/
def lowerLike (env : Env) (filter column : String) : Bool :=
  likeMatch ("%" ++ env.ToLower filter ++ "%").toList (env.sqlLower column).toList

/-! ## Handlers of `src/handlers/applications.go` -/

/-- The JSON of an application after
`Preload("Applicant").Preload("Job").First(&application, application.ID)`:
the stored row when it is found, the value in hand otherwise. -/
def Store.reloadApplication (s : Store) (a : Application) : ApplicationJSON :=
  let a := (s.firstApplication a.ID).getD a
  ⟨a, s.preloadUser a.ApplicantID, ⟨s.preloadJob a.JobID, User.zero⟩⟩

/-- Handler `ApplyForJob` (`POST /api/jobs/:id/apply`). -/
def ApplyForJob (env : Env) (c : Ctx) (body : Option ApplyJobRequest) (s : Store) :
    Store × Response :=
  match env.uuidParse c.id with
  | none => (s, fail 400 "Invalid job ID" [])
  | some jobUUID =>
    match body with
    | none => (s, fail 400 "Invalid request data" [ErrText.bind])
    | some req =>
      if ¬ (req.ValidateStruct env).isEmpty then
        (s, fail 400 "Validation failed" [ErrText.validation (req.ValidateStruct env)])
      else
        let applicantID := c.user_id
        match s.firstJob jobUUID with
        | none => (s, fail 404 "Job not found" [])
        | some _ =>
          match s.firstApplicationOf applicantID jobUUID with
          | some _ =>
            (s, fail 409 "You have already applied to this job"
              [ErrText.lit "Duplicate application"])
          | none =>
            let application : Application :=
              { ID := uuidNil, ApplicantID := applicantID, JobID := jobUUID,
                ResumeLink := req.ResumeLink, CoverLetter := req.CoverLetter,
                Status := StatusApplied, AppliedAt := 0, CreatedAt := 0, UpdatedAt := 0 }
            match s.createApplication env.fk c.fresh c.now application with
            | none => (s, fail 500 "Failed to submit application" [ErrText.db])
            | some (s1, application) =>
              (s1, ok 201 "Application submitted successfully"
                (Payload.application (s1.reloadApplication application)))

/-- Handler `GetMyApplications` (`GET /api/applications/my-applications`). The
listing query has no failure in the store model, so its 500 branch is absent. -/
def GetMyApplications (c : Ctx) (s : Store) : Store × Response :=
  let p := paging c
  let applicantID := c.user_id
  let mine := s.applications.filter (fun a => a.ApplicantID = applicantID)
  let total : Int := mine.length
  let applications := offsetLimit p.offset p.pageSize mine
  let response := applications.map (fun app =>
    match s.firstJob app.JobID with
    | some job =>
      (⟨app.ID, job.Title, (s.preloadUser job.CreatedBy).Name, app.Status, app.AppliedAt⟩ :
        MyApplicationResponse)
    | none => ⟨app.ID, "", "", app.Status, app.AppliedAt⟩)
  (s, okPage "Applications retrieved successfully" (Payload.myApplications response)
    p.page p.pageSize total)

/-- Handler `GetJobApplications` (`GET /api/jobs/:id/applications`). -/
def GetJobApplications (env : Env) (c : Ctx) (s : Store) : Store × Response :=
  match env.uuidParse c.id with
  | none => (s, fail 400 "Invalid job ID" [])
  | some jobUUID =>
    let p := paging c
    let currentUserID := c.user_id
    match s.firstJob jobUUID with
    | none => (s, fail 404 "Job not found" [])
    | some job =>
      if job.CreatedBy ≠ currentUserID then (s, fail 403 "Unauthorized access" [])
      else
        let ofJob := s.applications.filter (fun a => a.JobID = jobUUID)
        let total : Int := ofJob.length
        let applications := offsetLimit p.offset p.pageSize ofJob
        let response := applications.map (fun app =>
          (⟨app.ID, (s.preloadUser app.ApplicantID).Name, app.ResumeLink, app.CoverLetter,
            app.Status, app.AppliedAt⟩ : JobApplicationResponse))
        (s, okPage "Applications retrieved successfully" (Payload.jobApplications response)
          p.page p.pageSize total)

/-- Handler `UpdateApplicationStatus` (`PUT /api/applications/:id/status`).
`application.Job` is what `Preload("Job")` loaded: the zero job when the row
has no job. `Save` of a row just read has no failure in the store model, so
its 500 branch is absent. -/
def UpdateApplicationStatus (env : Env) (c : Ctx) (body : Option UpdateApplicationStatusRequest)
    (s : Store) : Store × Response :=
  match env.uuidParse c.id with
  | none => (s, fail 400 "Invalid application ID" [])
  | some appUUID =>
    match body with
    | none => (s, fail 400 "Invalid request data" [ErrText.bind])
    | some req =>
      if ¬ req.ValidateStruct.isEmpty then
        (s, fail 400 "Validation failed" [ErrText.validation req.ValidateStruct])
      else
        let currentUserID := c.user_id
        match s.firstApplication appUUID with
        | none => (s, fail 404 "Application not found" [])
        | some application =>
          if (s.preloadJob application.JobID).CreatedBy ≠ currentUserID then
            (s, fail 403 "Unauthorized" [])
          else
            let application := { application with Status := req.Status }
            let s1 := s.saveApplication c.now application
            (s1, ok 200 "Application status updated successfully"
              (Payload.application (s1.reloadApplication application)))

/-! ## Handlers of `src/handlers/jobs.go` -/

/-- Handler `CreateJob` (`POST /api/jobs`). -/
def CreateJob (env : Env) (c : Ctx) (body : Option CreateJobRequest) (s : Store) :
    Store × Response :=
  match body with
  | none => (s, fail 400 "Invalid request data" [ErrText.bind])
  | some req =>
    if ¬ req.ValidateStruct.isEmpty then
      (s, fail 400 "Validation failed" [ErrText.validation req.ValidateStruct])
    else
      let createdBy := c.user_id
      let job : Job :=
        { ID := uuidNil, Title := req.Title, Description := req.Description,
          Location := req.Location, CreatedBy := createdBy, CreatedAt := 0, UpdatedAt := 0 }
      match s.createJob env.fk c.fresh c.now job with
      | none => (s, fail 500 "Failed to create job" [ErrText.db])
      | some (s1, job) =>
        let job := (s1.firstJob job.ID).getD job
        (s1, ok 201 "Job created successfully"
          (Payload.job ⟨job, s1.preloadUser job.CreatedBy⟩))

/-- Handler `UpdateJob` (`PUT /api/jobs/:id`). `Save` of a row just read has no
failure in the store model, so its 500 branch is absent. -/
def UpdateJob (env : Env) (c : Ctx) (body : Option UpdateJobRequest) (s : Store) :
    Store × Response :=
  match env.uuidParse c.id with
  | none => (s, fail 400 "Invalid job ID" [])
  | some jobUUID =>
    match body with
    | none => (s, fail 400 "Invalid request data" [ErrText.bind])
    | some req =>
      if ¬ req.ValidateStruct.isEmpty then
        (s, fail 400 "Validation failed" [ErrText.validation req.ValidateStruct])
      else
        let currentUserID := c.user_id
        match s.firstJob jobUUID with
        | none => (s, fail 404 "Job not found" [])
        | some job =>
          if job.CreatedBy ≠ currentUserID then (s, fail 403 "Unauthorized access" [])
          else
            let job := { job with Title := req.Title, Description := req.Description,
                                  Location := req.Location }
            (s.saveJob c.now job, ok 200 "Job updated successfully"
              (Payload.job ⟨{ job with UpdatedAt := c.now }, User.zero⟩))

/-- Handler `DeleteJob` (`DELETE /api/jobs/:id`). -/
def DeleteJob (env : Env) (c : Ctx) (s : Store) : Store × Response :=
  match env.uuidParse c.id with
  | none => (s, fail 400 "Invalid job ID" [])
  | some jobUUID =>
    let currentUserID := c.user_id
    match s.firstJob jobUUID with
    | none => (s, fail 404 "Job not found" [])
    | some job =>
      if job.CreatedBy ≠ currentUserID then (s, fail 403 "Unauthorized access" [])
      else
        match s.deleteJob env.fk job with
        | none => (s, fail 500 "Failed to delete job" [ErrText.db])
        | some s1 => (s1, ok 200 "Job deleted successfully" Payload.null)

/-- The rows the query of `BrowseJobs` selects, before `Offset` and `Limit`:
table `jobs`, restricted by each filter that is not empty; the company filter
joins `users` on `jobs.created_by = users.id`. -/
def browseQuery (env : Env) (title location companyName : String) (s : Store) : List Job :=
  let rows := s.jobs
  let rows := if title ≠ "" then rows.filter (fun j => lowerLike env title j.Title) else rows
  let rows :=
    if location ≠ "" then rows.filter (fun j => lowerLike env location j.Location) else rows
  if companyName ≠ "" then
    rows.flatMap (fun j =>
      (s.users.filter (fun u => j.CreatedBy = u.ID ∧ lowerLike env companyName u.Name)).map
        (fun _ => j))
  else rows

/-- Handler `BrowseJobs` (`GET /api/jobs`). The listing query has no failure in
the store model, so its 500 branch is absent. -/
def BrowseJobs (env : Env) (c : Ctx) (s : Store) : Store × Response :=
  let p := paging c
  let title := c.Query "title"
  let location := c.Query "location"
  let companyName := c.Query "company_name"
  let query := browseQuery env title location companyName s
  let total : Int := query.length
  let jobs := offsetLimit p.offset p.pageSize query
  (s, okPage "Jobs retrieved successfully"
    (Payload.jobs (jobs.map (fun j => ⟨j, s.preloadUser j.CreatedBy⟩))) p.page p.pageSize total)

/-- Handler `GetJobDetails` (`GET /api/jobs/:id`). -/
def GetJobDetails (env : Env) (c : Ctx) (s : Store) : Store × Response :=
  match env.uuidParse c.id with
  | none => (s, fail 400 "Invalid job ID" [])
  | some jobUUID =>
    match s.firstJob jobUUID with
    | none => (s, fail 404 "Job not found" [])
    | some job =>
      (s, ok 200 "Job details retrieved successfully"
        (Payload.job ⟨job, s.preloadUser job.CreatedBy⟩))

/-- Handler `GetMyJobs` (`GET /api/jobs/my-jobs`). The loop that counts the
applications of each job discards the count. -/
def GetMyJobs (c : Ctx) (s : Store) : Store × Response :=
  let p := paging c
  let currentUserID := c.user_id
  let mine := s.jobs.filter (fun j => j.CreatedBy = currentUserID)
  let total : Int := mine.length
  let jobs := offsetLimit p.offset p.pageSize mine
  (s, okPage "Jobs retrieved successfully"
    (Payload.jobs (jobs.map (fun j => ⟨j, User.zero⟩))) p.page p.pageSize total)

/-! ## Handlers of `src/handlers/auth.go` -/

/-- Handler `Signup` (`POST /api/auth/signup`). -/
def Signup (env : Env) (c : Ctx) (body : Option SignupRequest) (s : Store) : Store × Response :=
  match body with
  | none => (s, fail 400 "Invalid request data" [ErrText.bind])
  | some req =>
    if ¬ (req.ValidateStruct env).isEmpty then
      (s, fail 400 "Validation failed" [ErrText.validation (req.ValidateStruct env)])
    else
      match s.users.find? (fun u => u.Email = req.Email) with
      | some _ => (s, fail 409 "User already exists" [ErrText.lit "Email already registered"])
      | none =>
        match env.HashPassword req.Password with
        | none => (s, fail 500 "Failed to process password" [ErrText.util])
        | some hashedPassword =>
          let user : User :=
            { ID := uuidNil, Name := req.Name, Email := req.Email, Password := hashedPassword,
              Role := req.Role, CreatedAt := 0, UpdatedAt := 0 }
          match s.createUser c.fresh c.now user with
          | none => (s, fail 500 "Failed to create user" [ErrText.db])
          | some (s1, user) =>
            (s1, ok 201 "User created successfully" (Payload.user { user with Password := "" }))

/-- Handler `Login` (`POST /api/auth/login`). -/
def Login (env : Env) (body : Option LoginRequest) (s : Store) : Store × Response :=
  match body with
  | none => (s, fail 400 "Invalid request data" [ErrText.bind])
  | some req =>
    if ¬ (req.ValidateStruct env).isEmpty then
      (s, fail 400 "Validation failed" [ErrText.validation (req.ValidateStruct env)])
    else
      match s.users.find? (fun u => u.Email = req.Email) with
      | none => (s, fail 401 "User not found" [ErrText.lit "Invalid credentials"])
      | some user =>
        if ¬ env.CheckPasswordHash req.Password user.Password then
          (s, fail 401 "Incorrect password" [ErrText.lit "Invalid credentials"])
        else
          match env.GenerateJWT user.ID user.Role with
          | none => (s, fail 500 "Failed to generate token" [ErrText.util])
          | some token =>
            (s, ok 200 "Login successful"
              (Payload.login token user.ID user.Name user.Email user.Role))

/-! ## Middleware (`src/middleware/auth.go`) and routes (`src/main.go`) -/

/-- Go `strings.Replace(s, old, new, 1)` for a non-empty `old`: the first
occurrence of `old` is replaced. -/
def replaceFirst (old new : List Char) : List Char → List Char
  | [] => []
  | c :: cs =>
    if old.isPrefixOf (c :: cs) then new ++ (c :: cs).drop old.length
    else c :: replaceFirst old new cs

/-- Middleware `AuthMiddleware`: the response with which it aborts, or the
claims whose fields it stores under `"user_id"` and `"user_role"`. -/
def AuthMiddleware (env : Env) (authHeader : String) : Except Response Claims :=
  if authHeader = "" then
    Except.error (fail 401 "Authorization header required"
      [ErrText.lit "Missing authorization header"])
  else
    let tokenString := String.mk (replaceFirst "Bearer ".toList [] authHeader.toList)
    match env.ValidateJWT tokenString with
    | none => Except.error (fail 401 "Invalid token" [ErrText.util])
    | some claims => Except.ok claims

/-- Middleware `RequireRole(role)`, given the value stored under `"user_role"`
(`none` when the key is not set): the response with which it aborts, or `none`
when it calls `c.Next()`. -/
def RequireRole (role : UserRole) (userRole : Option String) : Option Response :=
  match userRole with
  | none => some (fail 401 "User role not found" [])
  | some r => if r ≠ role then some (fail 403 "Insufficient permissions" []) else none

/-- The routes `main` registers that lead to a handler of `src/handlers`. -/
inductive Route
  | Signup
  | Login
  | CreateJob
  | UpdateJob
  | DeleteJob
  | GetMyJobs
  | GetJobApplications
  | BrowseJobs
  | ApplyForJob
  | GetJobDetails
  | GetMyApplications
  | UpdateApplicationStatus
deriving DecidableEq, Repr

/-- Whether the route is in group `/api`, which uses `AuthMiddleware`. -/
def Route.authenticated : Route → Bool
  | Route.Signup => false
  | Route.Login => false
  | _ => true

/-- The role of the `RequireRole` middleware the route is registered with. -/
def Route.role : Route → Option UserRole
  | Route.CreateJob => some RoleCompany
  | Route.UpdateJob => some RoleCompany
  | Route.DeleteJob => some RoleCompany
  | Route.GetMyJobs => some RoleCompany
  | Route.GetJobApplications => some RoleCompany
  | Route.BrowseJobs => some RoleApplicant
  | Route.ApplyForJob => some RoleApplicant
  | Route.GetMyApplications => some RoleApplicant
  | Route.UpdateApplicationStatus => some RoleCompany
  | Route.GetJobDetails => none
  | Route.Signup => none
  | Route.Login => none

/-- The request body as `c.ShouldBindJSON` decodes it into each request type:
`none` where it returns an error. -/
structure Body where
  signup : Option SignupRequest
  login : Option LoginRequest
  createJob : Option CreateJobRequest
  updateJob : Option UpdateJobRequest
  applyJob : Option ApplyJobRequest
  updateStatus : Option UpdateApplicationStatusRequest
deriving DecidableEq, Repr

/-- The handler function registered for a route, run on a context. -/
def handle (env : Env) (route : Route) (c : Ctx) (body : Body) (s : Store) : Store × Response :=
  match route with
  | Route.Signup => Signup env c body.signup s
  | Route.Login => Login env body.login s
  | Route.CreateJob => CreateJob env c body.createJob s
  | Route.UpdateJob => UpdateJob env c body.updateJob s
  | Route.DeleteJob => DeleteJob env c s
  | Route.GetMyJobs => GetMyJobs c s
  | Route.GetJobApplications => GetJobApplications env c s
  | Route.BrowseJobs => BrowseJobs env c s
  | Route.ApplyForJob => ApplyForJob env c body.applyJob s
  | Route.GetJobDetails => GetJobDetails env c s
  | Route.GetMyApplications => GetMyApplications c s
  | Route.UpdateApplicationStatus => UpdateApplicationStatus env c body.updateStatus s

/-- An HTTP request to one of the routes. -/
structure Request where
  route : Route
  /-- The header `Authorization`, empty when absent. -/
  Authorization : String
  /-- The path parameter `id`. -/
  id : String
  query : String → Option String
  body : Body
  /-- What `uuid.New()` and `time.Now()` return while the request is handled. -/
  fresh : UUID
  now : Time

/-- The handler chain of a route as `main` registers it: `AuthMiddleware` for
the routes of group `/api`, then `RequireRole` where given, then the handler. -/
def serve (env : Env) (req : Request) (s : Store) : Store × Response :=
  if req.route.authenticated then
    match AuthMiddleware env req.Authorization with
    | Except.error resp => (s, resp)
    | Except.ok claims =>
      let c : Ctx := ⟨req.id, req.query, claims.UserID, req.fresh, req.now⟩
      match req.route.role with
      | none => handle env req.route c req.body s
      | some role =>
        match RequireRole role (some claims.Role) with
        | some resp => (s, resp)
        | none => handle env req.route c req.body s
  else
    handle env req.route ⟨req.id, req.query, uuidNil, req.fresh, req.now⟩ req.body s

/-- The store after a sequence of handler invocations, each run to completion
before the next. -/
def runHandlers (env : Env) : List (Route × Ctx × Body) → Store → Store
  | [], s => s
  | (route, c, body) :: rest, s => runHandlers env rest (handle env route c body s).1

/-- The store after a sequence of HTTP requests, each served to completion
before the next. -/
def run (env : Env) : List Request → Store → Store
  | [], s => s
  | req :: rest, s => run env rest (serve env req s).1

/-! ## A concrete environment and store for the examples -/

/-- The value of a hexadecimal digit. -/
def hexVal (c : Char) : Option Nat :=
  if '0' ≤ c ∧ c ≤ '9' then some (c.toNat - 48)
  else if 'a' ≤ c ∧ c ≤ 'f' then some (c.toNat - 87)
  else if 'A' ≤ c ∧ c ≤ 'F' then some (c.toNat - 55)
  else none

/-- An identifier parser for the examples: the canonical form
`xxxxxxxx-xxxx-xxxx-xxxx-xxxxxxxxxxxx` of 32 hexadecimal digits. -/
def uuidCanonical (s : String) : Option UUID :=
  let cs := s.toList
  if cs.length ≠ 36 then none
  else if cs.get? 8 ≠ some '-' ∨ cs.get? 13 ≠ some '-' ∨ cs.get? 18 ≠ some '-' ∨
      cs.get? 23 ≠ some '-' then none
  else
    (cs.take 8 ++ (cs.drop 9).take 4 ++ (cs.drop 14).take 4 ++ (cs.drop 19).take 4 ++
        cs.drop 24).foldl
      (fun acc ch => acc.bind (fun n => (hexVal ch).map (fun d => n * 16 + d))) (some 0)

/-- The token table of the example environment. -/
def exValidateJWT (token : String) : Option Claims :=
  if token = "token-company-1" then some ⟨1, "company"⟩
  else if token = "token-company-2" then some ⟨2, "company"⟩
  else if token = "token-applicant-3" then some ⟨3, "applicant"⟩
  else none

/-- An environment for the examples, with restricting foreign keys. -/
def exEnv : Env where
  uuidParse := uuidCanonical
  isURL := fun s => "https://".toList.isPrefixOf s.toList
  isEmail := fun s => s.toList.contains '@'
  ValidateJWT := exValidateJWT
  GenerateJWT := fun _ _ => some "token"
  HashPassword := fun p => some ("hash:" ++ p)
  CheckPasswordHash := fun p h => h = "hash:" ++ p
  isUpper := Char.isUpper
  isLower := Char.isLower
  isDigit := Char.isDigit
  ToLower := fun s => String.mk (s.toList.map Char.toLower)
  sqlLower := fun s => String.mk (s.toList.map Char.toLower)
  fk := FKMode.restrict

def exCompany1 : User := ⟨1, "Acme", "hr@acme.example", "hash:Secret1!", "company", 1, 1⟩
def exCompany2 : User := ⟨2, "Globex", "hr@globex.example", "hash:Secret2!", "company", 2, 2⟩
def exApplicant : User := ⟨3, "Xavier", "x@x.example", "hash:Secret3!", "applicant", 3, 3⟩

/-- Job `0000...000a` (identifier 10), owned by company 1. -/
def exJob : Job :=
  ⟨10, "Backend Engineer", "Builds and runs the backend services.", "Remote", 1, 4, 4⟩

/-- Application 20 of applicant 3 to job 10. -/
def exApplication : Application :=
  ⟨20, 3, 10, "https://x.example/resume.pdf", "", "Applied", 5, 5, 5⟩

def exStore : Store := ⟨[exCompany1, exCompany2, exApplicant], [exJob], [exApplication]⟩

/-- The path parameter naming job 10. -/
def exJobParam : String := "00000000-0000-0000-0000-00000000000a"

/-- The path parameter naming application 20. -/
def exApplicationParam : String := "00000000-0000-0000-0000-000000000014"

/-- A query string without parameters. -/
def noQuery : String → Option String := fun _ => none

/-- A query string with `page` and `page_size`. -/
def pageQuery (page pageSize : String) : String → Option String :=
  fun k => if k = "page" then some page else if k = "page_size" then some pageSize else none

/-- An example body binding a valid `CreateJobRequest`. -/
def exBody : Body :=
  ⟨none, none, some ⟨"Backend Engineer", "Builds and runs the backend services.", ""⟩, none, none,
    none⟩

/-! ## Decimal numerals -/

/-- Whether a character is a decimal digit. -/
def isDecimal (c : Char) : Bool := '0' ≤ c ∧ c ≤ '9'

/-- The number a string of decimal digits denotes, continuing from `n`. -/
def decimalFrom (n : Nat) (ds : List Char) : Nat :=
  ds.foldl (fun n c => n * 10 + (c.toNat - '0'.toNat)) n

/-- The number a string of decimal digits denotes. -/
def decimalValue (ds : List Char) : Nat := decimalFrom 0 ds

/-! ## Pages of a listing -/

/-- The rows of page `p` (from 1) of size `sz` of a listing `l`. -/
def pageRows {α : Type} (l : List α) (p sz : Nat) : List α :=
  (l.drop ((p - 1) * sz)).take sz

/-- The identifiers of the jobs in the `object` of a job listing. -/
def Response.jobIDs (r : Response) : List UUID :=
  match r.Object with
  | Payload.jobs js => js.map (fun j => j.job.ID)
  | _ => []

/-- The `total_size` of a paginated response. -/
def Response.totalSize (r : Response) : Option Int := r.page.map PageInfo.TotalSize

/-! ## Invariants of table `applications` -/

/-- The (applicant, job) pair of an application. -/
def pairOf (a : Application) : UUID × UUID := (a.ApplicantID, a.JobID)

/-- The primary key of table `applications` is unique (tag `primary_key` of
`models.Application.ID`). -/
@[reducible] def Store.applicationKeysUnique (s : Store) : Prop :=
  (s.applications.map Application.ID).Nodup

/-- At most one application per (applicant, job) pair. -/
@[reducible] def Store.onePerPair (s : Store) : Prop :=
  (s.applications.map pairOf).Nodup

/-- Every stored application status is one of the five values. -/
@[reducible] def Store.statusesValid (s : Store) : Prop :=
  ∀ a ∈ s.applications, a.Status ∈ validStatuses

/-- The ways in which one handler invocation changes table `applications`. -/
inductive AppsStep (s : Store) : List Application → Prop
  | same : AppsStep s s.applications
  | created (a : Application)
      (hpair : s.firstApplicationOf a.ApplicantID a.JobID = none)
      (hkey : s.firstApplication a.ID = none)
      (hst : a.Status = StatusApplied) : AppsStep s (s.applications ++ [a])
  | saved (a : Application) (st : ApplicationStatus) (now : Time)
      (ha : a ∈ s.applications) (hst : st ∈ validStatuses) :
      AppsStep s (s.applications.map (fun x =>
        if x.ID = a.ID then { a with Status := st, UpdatedAt := now } else x))
  | deleted (jobID : UUID) : AppsStep s (s.applications.filter (fun a => a.JobID ≠ jobID))

/-- Two apply requests of applicant 3 for job 10. -/
def exApplyTwice : List Request :=
  [⟨Route.ApplyForJob, "Bearer token-applicant-3", exJobParam, noQuery,
      ⟨none, none, none, none, some ⟨"https://x.example/resume.pdf", ""⟩, none⟩, 21, 9⟩,
   ⟨Route.ApplyForJob, "Bearer token-applicant-3", exJobParam, noQuery,
      ⟨none, none, none, none, some ⟨"https://x.example/resume.pdf", ""⟩, none⟩, 22, 10⟩]

/-! ## The listing of an applicant -/

/-- The entry the transform loop of `GetMyApplications` builds for one
application, from its preloaded `Job` and `Job.Creator`. -/
def Store.myApplicationEntry (s : Store) (app : Application) : MyApplicationResponse :=
  match s.firstJob app.JobID with
  | some job => ⟨app.ID, job.Title, (s.preloadUser job.CreatedBy).Name, app.Status, app.AppliedAt⟩
  | none => ⟨app.ID, "", "", app.Status, app.AppliedAt⟩

/-- The whole listing of an applicant, which `GetMyApplications` serves in pages:
the entries of all applications with that `applicant_id`. -/
def Store.myApplications (s : Store) (applicantID : UUID) : List MyApplicationResponse :=
  (s.applications.filter (fun a => a.ApplicantID = applicantID)).map s.myApplicationEntry

/-- The entry with its status replaced when it is the entry of application `id`. -/
def setEntryStatus (id : UUID) (st : ApplicationStatus) (e : MyApplicationResponse) :
    MyApplicationResponse :=
  if e.ID = id then { e with Status := st } else e

/-! ## Further examples and the `LIKE` metacharacters -/

/-- The integer a decimal numeral denotes: the value of its digits, negated
after the sign `-`. -/
def numeralValue (sign ds : List Char) : Int :=
  if sign = ['-'] then -(decimalValue ds : Int) else (decimalValue ds : Int)

/-- A store with three jobs of company 1 and no applications. -/
def exStore3 : Store :=
  ⟨exStore.users,
    [exJob, { exJob with ID := 11, Title := "Data Engineer" },
      { exJob with ID := 12, Title := "Site Reliability Engineer" }], []⟩

/-- The browse request for page 1 or page 2 of size 2, without filters. -/
def exPageCtx (p : Nat) : Ctx :=
  ⟨"", pageQuery (if p = 1 then "1" else "2") "2", 3, 0, 0⟩

/-- Whether a character has a special meaning in a `LIKE` pattern. -/
def isLikeMeta (c : Char) : Bool := c = '%' ∨ c = '_' ∨ c = '\\'

/-- A query string with the three browse filters. -/
def filterQuery (title location companyName : String) : String → Option String :=
  fun k =>
    if k = "title" then some title
    else if k = "location" then some location
    else if k = "company_name" then some companyName
    else none

/-! ## Lemmas on the store operations -/

theorem find?_eq_some_key {α : Type} (key : α → UUID) (l : List α) (k : UUID) (x : α)
    (h : l.find? (fun y => key y = k) = some x) : key x = k ∧ x ∈ l := by
  have h1 := List.find?_some h
  have h2 := List.mem_of_find?_eq_some h
  exact ⟨by simpa using h1, h2⟩

theorem firstJob_key (s : Store) (id : UUID) (j : Job) (h : s.firstJob id = some j) :
    j.ID = id ∧ j ∈ s.jobs :=
  find?_eq_some_key Job.ID s.jobs id j h

theorem firstApplication_key (s : Store) (id : UUID) (a : Application)
    (h : s.firstApplication id = some a) : a.ID = id ∧ a ∈ s.applications :=
  find?_eq_some_key Application.ID s.applications id a h

theorem firstApplicationOf_isSome (s : Store) (a : Application) (h : a ∈ s.applications) :
    (s.firstApplicationOf a.ApplicantID a.JobID).isSome = true := by
  unfold Store.firstApplicationOf
  rw [List.find?_isSome]
  exact ⟨a, h, by simp⟩

/-- A request whose role claim differs from the role of the route stops in
`RequireRole` with 403. -/
theorem serve_wrong_role (env : Env) (req : Request) (s : Store) (claims : Claims) (R : UserRole)
    (hauth : AuthMiddleware env req.Authorization = Except.ok claims)
    (hR : req.route.role = some R) (hrole : claims.Role ≠ R) :
    serve env req s = (s, fail 403 "Insufficient permissions" []) := by
  have hA : req.route.authenticated = true := by
    cases hr : req.route <;> simp [hr, Route.role] at hR <;> rfl
  simp [serve, hA, hauth, hR, RequireRole, hrole]

theorem validateStatus_nil_iff (r : UpdateApplicationStatusRequest) :
    r.ValidateStruct = [] ↔ r.Status ∈ validStatuses := by
  unfold UpdateApplicationStatusRequest.ValidateStruct validStatuses StatusApplied StatusReviewed
    StatusInterview StatusRejected StatusHired
  by_cases h0 : r.Status = ""
  · simp [checkField, h0]
  · by_cases h1 : r.Status ∈ ["Applied", "Reviewed", "Interview", "Rejected", "Hired"]
    · simp [checkField, h0, h1]
    · simp [checkField, h0, h1]

theorem find?_map_replace (l : List Application) (a b : Application) (id : UUID)
    (hb : b.ID = id) (h : l.find? (fun x => x.ID = id) = some a) :
    (l.map (fun x => if x.ID = id then b else x)).find? (fun x => x.ID = id) = some b := by
  induction l with
  | nil => simp at h
  | cons x xs ih =>
    by_cases hx : x.ID = id
    · simp [List.find?, hx, hb]
    · have h2 : xs.find? (fun x => x.ID = id) = some a := by
        simpa [List.find?, hx] using h
      simp [List.find?, hx, ih h2]

theorem saveApplication_first (s : Store) (now : Time) (a b : Application) (id : UUID)
    (hb : b.ID = id) (h : s.firstApplication id = some a) :
    (s.saveApplication now b).firstApplication id = some { b with UpdatedAt := now } := by
  unfold Store.saveApplication Store.firstApplication
  subst hb
  exact find?_map_replace s.applications a { b with UpdatedAt := now } b.ID rfl h

theorem UpdateApplicationStatus_owner (env : Env) (c : Ctx) (s : Store) (appUUID : UUID)
    (a : Application) (st : ApplicationStatus)
    (hid : env.uuidParse c.id = some appUUID)
    (ha : s.firstApplication appUUID = some a)
    (hown : (s.preloadJob a.JobID).CreatedBy = c.user_id)
    (hst : st ∈ validStatuses) :
    UpdateApplicationStatus env c (some ⟨st⟩) s =
      (s.saveApplication c.now { a with Status := st },
        ok 200 "Application status updated successfully"
          (Payload.application
            ((s.saveApplication c.now { a with Status := st }).reloadApplication
              { a with Status := st }))) := by
  have hv : (⟨st⟩ : UpdateApplicationStatusRequest).ValidateStruct = [] :=
    (validateStatus_nil_iff ⟨st⟩).mpr hst
  simp [UpdateApplicationStatus, hid, hv, ha, hown]

theorem UpdateApplicationStatus_not_owner (env : Env) (c : Ctx) (s : Store) (appUUID : UUID)
    (a : Application) (st : ApplicationStatus)
    (hid : env.uuidParse c.id = some appUUID)
    (ha : s.firstApplication appUUID = some a)
    (hown : (s.preloadJob a.JobID).CreatedBy ≠ c.user_id)
    (hst : st ∈ validStatuses) :
    UpdateApplicationStatus env c (some ⟨st⟩) s = (s, fail 403 "Unauthorized" []) := by
  have hv : (⟨st⟩ : UpdateApplicationStatusRequest).ValidateStruct = [] :=
    (validateStatus_nil_iff ⟨st⟩).mpr hst
  simp [UpdateApplicationStatus, hid, hv, ha, hown]

theorem saveApplication_jobs (s : Store) (now : Time) (b : Application) :
    (s.saveApplication now b).jobs = s.jobs := rfl

/-! ## How a handler changes table `applications` -/

theorem Application.BeforeCreate_fields (a : Application) (fresh : UUID) (now : Time) :
    (a.BeforeCreate fresh now).Status = a.Status ∧
      (a.BeforeCreate fresh now).ApplicantID = a.ApplicantID ∧
      (a.BeforeCreate fresh now).JobID = a.JobID ∧
      (a.BeforeCreate fresh now).ResumeLink = a.ResumeLink := by
  unfold Application.BeforeCreate
  simp only
  refine ⟨?_, ?_, ?_, ?_⟩ <;> split <;> split <;> rfl

theorem createApplication_some (s s1 : Store) (fk : FKMode) (fresh : UUID) (now : Time)
    (a a1 : Application) (h : s.createApplication fk fresh now a = some (s1, a1)) :
    s1 = { s with applications := s.applications ++ [a1] } ∧ s.firstApplication a1.ID = none ∧
      a1.Status = a.Status ∧ a1.ApplicantID = a.ApplicantID ∧ a1.JobID = a.JobID ∧
      a1.ResumeLink = a.ResumeLink := by
  unfold Store.createApplication at h
  simp only at h
  split_ifs at h with hk hr
  simp only [Option.some.injEq, Prod.mk.injEq] at h
  obtain ⟨h1, h2⟩ := h
  have hf := Application.BeforeCreate_fields a fresh now
  subst h2
  refine ⟨h1.symm, by simpa using hk, hf.1, hf.2.1, hf.2.2.1, hf.2.2.2⟩

theorem createJob_some (s s1 : Store) (fk : FKMode) (fresh : UUID) (now : Time)
    (j j1 : Job) (h : s.createJob fk fresh now j = some (s1, j1)) :
    s1.applications = s.applications := by
  unfold Store.createJob at h
  simp only at h
  split_ifs at h
  simp only [Option.some.injEq, Prod.mk.injEq] at h
  rw [← h.1]

theorem createUser_some (s s1 : Store) (fresh : UUID) (now : Time)
    (u u1 : User) (h : s.createUser fresh now u = some (s1, u1)) :
    s1.applications = s.applications := by
  unfold Store.createUser at h
  simp only at h
  split_ifs at h
  simp only [Option.some.injEq, Prod.mk.injEq] at h
  rw [← h.1]

theorem deleteJob_some (s s1 : Store) (fk : FKMode) (j : Job)
    (h : s.deleteJob fk j = some s1) :
    s1.applications = s.applications ∨
      s1.applications = s.applications.filter (fun a => a.JobID ≠ j.ID) := by
  unfold Store.deleteJob at h
  split at h
  · simp only [Option.some.injEq] at h
    left; rw [← h]
  · split at h
    · simp at h
    · simp only [Option.some.injEq] at h
      left; rw [← h]
  · simp only [Option.some.injEq] at h
    right; rw [← h]

theorem ApplyForJob_step (env : Env) (c : Ctx) (body : Option ApplyJobRequest) (s : Store) :
    AppsStep s (ApplyForJob env c body s).1.applications := by
  unfold ApplyForJob
  split
  · exact AppsStep.same
  · split
    · exact AppsStep.same
    · split
      · exact AppsStep.same
      · simp only
        split
        · exact AppsStep.same
        · split
          · exact AppsStep.same
          · rename_i hnone
            split
            · exact AppsStep.same
            · rename_i s1 a1 hc
              obtain ⟨h1, h2, h3, h4, h5, -⟩ := createApplication_some _ _ _ _ _ _ _ hc
              rw [h1]
              exact AppsStep.created a1 (by rw [h4, h5]; exact hnone) h2 (by rw [h3])

theorem UpdateApplicationStatus_step (env : Env) (c : Ctx)
    (body : Option UpdateApplicationStatusRequest) (s : Store) :
    AppsStep s (UpdateApplicationStatus env c body s).1.applications := by
  unfold UpdateApplicationStatus
  split
  · exact AppsStep.same
  · split
    · exact AppsStep.same
    · rename_i req
      split
      · exact AppsStep.same
      · rename_i hv
        simp only
        split
        · exact AppsStep.same
        · rename_i a ha
          split
          · exact AppsStep.same
          · have hst : req.Status ∈ validStatuses := by
              apply (validateStatus_nil_iff req).mp
              simpa using hv
            exact AppsStep.saved a req.Status c.now (firstApplication_key s _ a ha).2 hst

theorem CreateJob_step (env : Env) (c : Ctx) (body : Option CreateJobRequest) (s : Store) :
    AppsStep s (CreateJob env c body s).1.applications := by
  unfold CreateJob
  split
  · exact AppsStep.same
  · split
    · exact AppsStep.same
    · simp only
      split
      · exact AppsStep.same
      · rename_i s1 j1 hc
        simp only [createJob_some _ _ _ _ _ _ _ hc]
        exact AppsStep.same

theorem UpdateJob_step (env : Env) (c : Ctx) (body : Option UpdateJobRequest) (s : Store) :
    AppsStep s (UpdateJob env c body s).1.applications := by
  unfold UpdateJob
  split
  · exact AppsStep.same
  · split
    · exact AppsStep.same
    · split
      · exact AppsStep.same
      · simp only
        split
        · exact AppsStep.same
        · split
          · exact AppsStep.same
          · exact AppsStep.same

theorem DeleteJob_step (env : Env) (c : Ctx) (s : Store) :
    AppsStep s (DeleteJob env c s).1.applications := by
  unfold DeleteJob
  split
  · exact AppsStep.same
  · simp only
    split
    · exact AppsStep.same
    · rename_i job _
      split
      · exact AppsStep.same
      · split
        · exact AppsStep.same
        · rename_i s1 hd
          rcases deleteJob_some _ _ _ _ hd with h | h
          · simp only [h]; exact AppsStep.same
          · simp only [h]; exact AppsStep.deleted job.ID

theorem Signup_step (env : Env) (c : Ctx) (body : Option SignupRequest) (s : Store) :
    AppsStep s (Signup env c body s).1.applications := by
  unfold Signup
  split
  · exact AppsStep.same
  · split
    · exact AppsStep.same
    · split
      · exact AppsStep.same
      · split
        · exact AppsStep.same
        · simp only
          split
          · exact AppsStep.same
          · rename_i s1 u1 hc
            simp only [createUser_some _ _ _ _ _ _ hc]
            exact AppsStep.same

theorem Login_store (env : Env) (body : Option LoginRequest) (s : Store) :
    (Login env body s).1 = s := by
  unfold Login
  repeat' split
  all_goals rfl

theorem GetJobApplications_store (env : Env) (c : Ctx) (s : Store) :
    (GetJobApplications env c s).1 = s := by
  unfold GetJobApplications
  split
  · rfl
  · simp only
    split
    · rfl
    · split <;> rfl

theorem GetJobDetails_store (env : Env) (c : Ctx) (s : Store) :
    (GetJobDetails env c s).1 = s := by
  unfold GetJobDetails
  repeat' split
  all_goals rfl

theorem handle_step (env : Env) (route : Route) (c : Ctx) (body : Body) (s : Store) :
    AppsStep s (handle env route c body s).1.applications := by
  cases route <;> simp only [handle]
  · exact Signup_step env c body.signup s
  · rw [Login_store]; exact AppsStep.same
  · exact CreateJob_step env c body.createJob s
  · exact UpdateJob_step env c body.updateJob s
  · exact DeleteJob_step env c s
  · exact AppsStep.same
  · rw [GetJobApplications_store]; exact AppsStep.same
  · exact AppsStep.same
  · exact ApplyForJob_step env c body.applyJob s
  · rw [GetJobDetails_store]; exact AppsStep.same
  · exact AppsStep.same
  · exact UpdateApplicationStatus_step env c body.updateStatus s

theorem serve_step (env : Env) (req : Request) (s : Store) :
    AppsStep s (serve env req s).1.applications := by
  unfold serve
  split
  · split
    · exact AppsStep.same
    · simp only
      split
      · exact handle_step env _ _ _ s
      · split
        · exact AppsStep.same
        · exact handle_step env _ _ _ s
  · exact handle_step env _ _ _ s

theorem find?_none_key {α : Type} (p : α → Bool) (l : List α) (h : l.find? p = none) :
    ∀ x ∈ l, p x = false := by
  intro x hx
  have := List.find?_eq_none.mp h x hx
  simpa using this

theorem map_replace_same {β : Type} (f : Application → β) (l : List Application)
    (k : UUID) (b : Application)
    (h : ∀ x ∈ l, x.ID = k → f b = f x) :
    (l.map (fun x => if x.ID = k then b else x)).map f = l.map f := by
  rw [List.map_map]
  apply List.map_congr_left
  intro x hx
  by_cases hk : x.ID = k
  · simp [hk, h x hx hk]
  · simp [hk]

theorem keys_after_append (l : List Application) (a : Application)
    (hk : (l.map Application.ID).Nodup) (hn : l.find? (fun x => x.ID = a.ID) = none) :
    ((l ++ [a]).map Application.ID).Nodup := by
  rw [List.map_append, List.nodup_append]
  refine ⟨hk, by simp, ?_⟩
  intro k hk1 hk2
  simp only [List.map_cons, List.map_nil, List.mem_singleton] at hk2
  obtain ⟨x, hx, rfl⟩ := List.mem_map.mp hk1
  have := find?_none_key _ l hn x hx
  simp [hk2] at this

theorem pairs_after_append (l : List Application) (a : Application)
    (hp : (l.map pairOf).Nodup)
    (hn : l.find? (fun x => x.ApplicantID = a.ApplicantID ∧ x.JobID = a.JobID) = none) :
    ((l ++ [a]).map pairOf).Nodup := by
  rw [List.map_append, List.nodup_append]
  refine ⟨hp, by simp, ?_⟩
  intro k hk1 hk2
  simp only [List.map_cons, List.map_nil, List.mem_singleton] at hk2
  obtain ⟨x, hx, rfl⟩ := List.mem_map.mp hk1
  have := find?_none_key _ l hn x hx
  simp only [pairOf, Prod.mk.injEq] at hk2
  simp [hk2.1, hk2.2] at this

/-! ## `strconv.Atoi` on strings of digits -/

theorem decimalFrom_ge (ds : List Char) (n : Nat) : n ≤ decimalFrom n ds := by
  induction ds generalizing n with
  | nil => exact Nat.le_refl n
  | cons c cs ih =>
    have := ih (n * 10 + (c.toNat - '0'.toNat))
    simp only [decimalFrom, List.foldl_cons] at this ⊢
    omega

theorem parseUintLoop_digits (ds : List Char) (n : Nat) (hn : n ≤ 2 ^ 64 - 1)
    (hd : ∀ c ∈ ds, isDecimal c = true) :
    parseUintLoop ds n =
      if decimalFrom n ds ≤ 2 ^ 64 - 1 then (decimalFrom n ds, none)
      else (2 ^ 64 - 1, some NumError.range) := by
  induction ds generalizing n with
  | nil =>
    simp only [parseUintLoop, decimalFrom, List.foldl_nil]
    rw [if_pos hn]
  | cons c cs ih =>
    have hc : '0' ≤ c ∧ c ≤ '9' := by simpa [isDecimal] using hd c (List.mem_cons_self c cs)
    have hcs : ∀ c ∈ cs, isDecimal c = true := fun x hx => hd x (List.mem_cons_of_mem c hx)
    have hge := decimalFrom_ge cs (n * 10 + (c.toNat - '0'.toNat))
    have hstep : decimalFrom n (c :: cs) = decimalFrom (n * 10 + (c.toNat - '0'.toNat)) cs := rfl
    rw [hstep]
    unfold parseUintLoop
    rw [if_pos hc]
    by_cases h1 : n ≥ (2 ^ 64 - 1) / 10 + 1
    · have h3 : ¬ decimalFrom (n * 10 + (c.toNat - '0'.toNat)) cs ≤ 2 ^ 64 - 1 := by
        norm_num at h1 ⊢
        omega
      rw [if_pos h1, if_neg h3]
    · rw [if_neg h1]
      by_cases h2 : n * 10 + (c.toNat - '0'.toNat) > 2 ^ 64 - 1
      · have h3 : ¬ decimalFrom (n * 10 + (c.toNat - '0'.toNat)) cs ≤ 2 ^ 64 - 1 := by omega
        simp only [h2, if_true]
        rw [if_neg h3]
      · simp only [h2, if_false]
        exact ih _ (by omega) hcs

theorem ParseUint_digits (ds : List Char) (hne : ds ≠ []) (hd : ∀ c ∈ ds, isDecimal c = true) :
    ParseUint ds =
      if decimalValue ds ≤ 2 ^ 64 - 1 then (decimalValue ds, none)
      else (2 ^ 64 - 1, some NumError.range) := by
  cases ds with
  | nil => exact absurd rfl hne
  | cons c cs => exact parseUintLoop_digits (c :: cs) 0 (by norm_num) hd

/-- A non-empty string of decimal digits denoting a value below `2^63` is
accepted by `Atoi` with that value. -/
theorem Atoi_digits (ds : List Char) (hne : ds ≠ []) (hd : ∀ c ∈ ds, isDecimal c = true)
    (hv : decimalValue ds < 2 ^ 63) : Atoi (String.mk ds) = ((decimalValue ds : Int), none) := by
  cases ds with
  | nil => exact absurd rfl hne
  | cons c cs =>
    have hc : '0' ≤ c ∧ c ≤ '9' := by simpa [isDecimal] using hd c (List.mem_cons_self c cs)
    have hplus : ¬ (c = '+' ∨ c = '-') := by
      rintro (h | h) <;> subst h <;> exact absurd hc (by decide)
    have hneg : (decide (c = '-')) = false := by
      simp only [decide_eq_false_iff_not]
      intro h; exact hplus (Or.inr h)
    have hU := ParseUint_digits (c :: cs) hne hd
    rw [if_pos (by omega)] at hU
    simp only [Atoi, String.toList, ParseInt, hplus, if_false, hU, hneg]
    have h63 : ¬ decimalValue (c :: cs) ≥ 2 ^ 63 := by omega
    simp [h63]
    omega

/-- A string of decimal digits denoting a value of `2^63` or more is reported
by `Atoi` as `2^63 - 1` with a range error. -/
theorem Atoi_digits_saturates (ds : List Char) (hd : ∀ c ∈ ds, isDecimal c = true)
    (hv : 2 ^ 63 ≤ decimalValue ds) :
    Atoi (String.mk ds) = (2 ^ 63 - 1, some NumError.range) := by
  cases ds with
  | nil => simp [decimalValue, decimalFrom] at hv
  | cons c cs =>
    have hc : '0' ≤ c ∧ c ≤ '9' := by simpa [isDecimal] using hd c (List.mem_cons_self c cs)
    have hplus : ¬ (c = '+' ∨ c = '-') := by
      rintro (h | h) <;> subst h <;> exact absurd hc (by decide)
    have hneg : (decide (c = '-')) = false := by
      simp only [decide_eq_false_iff_not]
      intro h; exact hplus (Or.inr h)
    have hU := ParseUint_digits (c :: cs) (by simp) hd
    by_cases h64 : decimalValue (c :: cs) ≤ 2 ^ 64 - 1
    · rw [if_pos h64] at hU
      simp only [Atoi, String.toList, ParseInt, hplus, if_false, hU, hneg]
      simp [hv]
      omega
    · rw [if_neg h64] at hU
      simp only [Atoi, String.toList, ParseInt, hplus, if_false, hU, hneg]
      simp

/-! ## Invariants along a handler step -/

theorem AppsStep_keys (s : Store) (l : List Application) (h : AppsStep s l)
    (hk : s.applicationKeysUnique) : (l.map Application.ID).Nodup := by
  cases h with
  | same => exact hk
  | created a hpair hkey hst => exact keys_after_append s.applications a hk hkey
  | saved a st now ha hst =>
    rw [map_replace_same Application.ID s.applications a.ID
      { a with Status := st, UpdatedAt := now } (fun x _ hx => hx.symm)]
    exact hk
  | deleted jobID =>
    exact hk.sublist ((List.filter_sublist _).map _)

theorem AppsStep_pairs (s : Store) (l : List Application) (h : AppsStep s l)
    (hk : s.applicationKeysUnique) (hp : s.onePerPair) : (l.map pairOf).Nodup := by
  cases h with
  | same => exact hp
  | created a hpair hkey hst => exact pairs_after_append s.applications a hp hpair
  | saved a st now ha hst =>
    rw [map_replace_same pairOf s.applications a.ID
      { a with Status := st, UpdatedAt := now } (fun x hx hxa => by
      have : x = a := List.inj_on_of_nodup_map hk hx ha hxa
      rw [this]; rfl)]
    exact hp
  | deleted jobID =>
    exact hp.sublist ((List.filter_sublist _).map _)

theorem AppsStep_statuses (s : Store) (l : List Application) (h : AppsStep s l)
    (hv : s.statusesValid) : ∀ a ∈ l, a.Status ∈ validStatuses := by
  cases h with
  | same => exact hv
  | created a hpair hkey hst =>
    intro x hx
    rcases List.mem_append.mp hx with hx | hx
    · exact hv x hx
    · rw [List.mem_singleton.mp hx, hst]; simp [validStatuses]
  | saved a st now ha hst =>
    intro x hx
    obtain ⟨y, hy, rfl⟩ := List.mem_map.mp hx
    by_cases hya : y.ID = a.ID
    · simpa [hya] using hst
    · simpa [hya] using hv y hy
  | deleted jobID =>
    intro x hx
    exact hv x (List.mem_filter.mp hx).1

theorem runHandlers_invariant (env : Env) (P : Store → Prop)
    (hstep : ∀ route c body s, P s → P (handle env route c body s).1)
    (reqs : List (Route × Ctx × Body)) (s : Store) (h : P s) : P (runHandlers env reqs s) := by
  induction reqs generalizing s with
  | nil => exact h
  | cons r rest ih =>
    obtain ⟨route, c, body⟩ := r
    exact ih _ (hstep route c body s h)

theorem run_invariant (env : Env) (P : Store → Prop)
    (hstep : ∀ req s, P s → P (serve env req s).1)
    (reqs : List Request) (s : Store) (h : P s) : P (run env reqs s) := by
  induction reqs generalizing s with
  | nil => exact h
  | cons r rest ih => exact ih _ (hstep r s h)

/-! ## The paging prologue -/

theorem paging_page_ge (c : Ctx) : 1 ≤ (paging c).page := by
  unfold paging
  simp only
  split <;> omega

theorem paging_pageSize_ge (c : Ctx) : 1 ≤ (paging c).pageSize := by
  unfold paging
  simp only
  split <;> omega

theorem paging_page_of (c : Ctx) (v : String) (n : Int) (e : Option NumError)
    (hq : c.query "page" = some v) (ha : Atoi v = (n, e)) (hn : 1 ≤ n) : (paging c).page = n := by
  have h1 : ¬ n < 1 := by omega
  simp [paging, Ctx.DefaultQuery, hq, ha, h1]

theorem paging_pageSize_of (c : Ctx) (v : String) (n : Int) (e : Option NumError)
    (hq : c.query "page_size" = some v) (ha : Atoi v = (n, e)) (hn : 1 ≤ n) :
    (paging c).pageSize = n := by
  have h1 : ¬ n < 1 := by omega
  simp [paging, Ctx.DefaultQuery, hq, ha, h1]

theorem paging_page_absent (c : Ctx) (hq : c.query "page" = none) : (paging c).page = 1 := by
  have h : Atoi "1" = (1, none) := by decide
  simp [paging, Ctx.DefaultQuery, hq, h]

theorem paging_pageSize_absent (c : Ctx) (hq : c.query "page_size" = none) :
    (paging c).pageSize = 10 := by
  have h : Atoi "10" = (10, none) := by decide
  simp [paging, Ctx.DefaultQuery, hq, h]

theorem paging_query (c : Ctx) (q : String → Option String)
    (h1 : q "page" = c.query "page") (h2 : q "page_size" = c.query "page_size") :
    paging { c with query := q } = paging c := by
  simp [paging, Ctx.DefaultQuery, h1, h2]

theorem GetJobApplications_status_query (env : Env) (c : Ctx) (s : Store)
    (q : String → Option String) :
    (GetJobApplications env { c with query := q } s).2.status =
      (GetJobApplications env c s).2.status := by
  unfold GetJobApplications
  simp only
  split
  · rfl
  · split
    · rfl
    · split <;> rfl

theorem GetJobApplications_owner (env : Env) (c : Ctx) (s : Store) (jobUUID : UUID) (J : Job)
    (hid : env.uuidParse c.id = some jobUUID) (hJ : s.firstJob jobUUID = some J)
    (hown : J.CreatedBy = c.user_id) :
    GetJobApplications env c s =
      (s, okPage "Applications retrieved successfully"
        (Payload.jobApplications
          ((offsetLimit (paging c).offset (paging c).pageSize
            (s.applications.filter (fun a => a.JobID = jobUUID))).map (fun app =>
              (⟨app.ID, (s.preloadUser app.ApplicantID).Name, app.ResumeLink, app.CoverLetter,
                app.Status, app.AppliedAt⟩ : JobApplicationResponse))))
        (paging c).page (paging c).pageSize
        ((s.applications.filter (fun a => a.JobID = jobUUID)).length : Int)) := by
  simp [GetJobApplications, hid, hJ, hown]


/-! ## Pagination while the offset stays in range -/

theorem wrap64_of_range (x : Int) (h0 : 0 ≤ x) (h1 : x < 2 ^ 63) : wrap64 x = x := by
  unfold wrap64
  have h : (x + 2 ^ 63) % 2 ^ 64 = x + 2 ^ 63 :=
    Int.emod_eq_of_lt (by omega) (by omega)
  rw [h]
  omega

theorem offsetLimit_in_range {α : Type} (l : List α) (p sz : Nat) (hp : 1 ≤ p) :
    offsetLimit (((p : Int) - 1) * (sz : Int)) (sz : Int) l = pageRows l p sz := by
  unfold offsetLimit pageRows
  have hcast : ((p : Int) - 1) * (sz : Int) = (((p - 1) * sz : Nat) : Int) := by
    push_cast [Nat.cast_sub hp]
    ring
  rw [hcast]
  simp only [Int.toNat_ofNat, ge_iff_le, Int.ofNat_zero_le, if_true, Nat.cast_nonneg]
  by_cases h : (0 : Int) < (((p - 1) * sz : Nat) : Int)
  · rw [if_pos h]
  · rw [if_neg h]
    have : (p - 1) * sz = 0 := by omega
    rw [this, List.drop_zero]

theorem pageRows_disjoint {α : Type} (l : List α) (hl : l.Nodup) (p q sz : Nat)
    (hp : 1 ≤ p) (hpq : p < q) : List.Disjoint (pageRows l p sz) (pageRows l q sz) := by
  unfold pageRows
  have hle : (p - 1) * sz + sz ≤ (q - 1) * sz := by
    have : p ≤ q - 1 := by omega
    calc (p - 1) * sz + sz = p * sz := by
          have : p = (p - 1) + 1 := by omega
          conv_rhs => rw [this, Nat.add_mul, Nat.one_mul]
      _ ≤ (q - 1) * sz := Nat.mul_le_mul_right sz this
  have h1 : (l.drop ((p - 1) * sz)).take sz ⊆ l.take ((p - 1) * sz + sz) := by
    rw [List.take_add]
    exact List.subset_append_right _ _
  have h2 : (l.drop ((q - 1) * sz)).take sz ⊆ l.drop ((p - 1) * sz + sz) :=
    fun x hx => (List.drop_sublist_drop_left l hle).subset ((List.take_sublist _ _).subset hx)
  have hd : List.Disjoint (l.take ((p - 1) * sz + sz)) (l.drop ((p - 1) * sz + sz)) := by
    apply List.disjoint_of_nodup_append
    rw [List.take_append_drop]
    exact hl
  exact fun x hx hy => hd (h1 hx) (h2 hy)

theorem pageRows_concat {α : Type} (l : List α) (sz k : Nat) :
    ((List.range k).map (fun i => pageRows l (i + 1) sz)).flatten = l.take (k * sz) := by
  induction k with
  | zero => simp
  | succ k ih =>
    rw [List.range_succ, List.map_append, List.flatten_append, ih]
    simp only [List.map_cons, List.map_nil, List.flatten_cons, List.flatten_nil, List.append_nil,
      pageRows, Nat.add_sub_cancel]
    rw [Nat.succ_mul, List.take_add]

theorem pageRows_all {α : Type} (l : List α) (sz : Nat) (hsz : 1 ≤ sz) :
    ((List.range ((l.length + sz - 1) / sz)).map (fun i => pageRows l (i + 1) sz)).flatten = l := by
  rw [pageRows_concat]
  apply List.take_of_length_le
  have h := Nat.div_add_mod (l.length + sz - 1) sz
  have h2 := Nat.mod_lt (l.length + sz - 1) (show sz > 0 by omega)
  have h3 : sz * ((l.length + sz - 1) / sz) = (l.length + sz - 1) / sz * sz := Nat.mul_comm _ _
  omega

theorem paging_offset (c : Ctx) :
    (paging c).offset = wrap64 (((paging c).page - 1) * (paging c).pageSize) := rfl

theorem BrowseJobs_unfiltered (env : Env) (c : Ctx) (s : Store) (p sz : Nat)
    (ht : c.query "title" = none) (hl : c.query "location" = none)
    (hc : c.query "company_name" = none)
    (hp : (paging c).page = p) (hsz : (paging c).pageSize = sz)
    (hrange : (p - 1) * sz < 2 ^ 63) :
    BrowseJobs env c s =
      (s, okPage "Jobs retrieved successfully"
        (Payload.jobs ((pageRows s.jobs p sz).map (fun j => ⟨j, s.preloadUser j.CreatedBy⟩)))
        p sz s.jobs.length) := by
  have hp1 : 1 ≤ p := by
    have := paging_page_ge c
    rw [hp] at this
    exact_mod_cast this
  have hoff : (paging c).offset = ((p : Int) - 1) * (sz : Int) := by
    rw [paging_offset, hp, hsz]
    apply wrap64_of_range
    · have : (0 : Int) ≤ (p : Int) - 1 := by omega
      positivity
    · have : ((p : Int) - 1) * (sz : Int) = (((p - 1) * sz : Nat) : Int) := by
        push_cast [Nat.cast_sub hp1]
        ring
      rw [this]
      exact_mod_cast hrange
  unfold BrowseJobs
  simp only [hoff, hp, hsz, Ctx.Query, ht, hl, hc, Option.getD_none, browseQuery,
    ne_eq, not_true_eq_false, if_false, offsetLimit_in_range _ _ _ hp1]

theorem GetMyJobs_page (c : Ctx) (s : Store) (p sz : Nat)
    (hp : (paging c).page = p) (hsz : (paging c).pageSize = sz)
    (hrange : (p - 1) * sz < 2 ^ 63) :
    GetMyJobs c s =
      (s, okPage "Jobs retrieved successfully"
        (Payload.jobs
          ((pageRows (s.jobs.filter (fun j => j.CreatedBy = c.user_id)) p sz).map
            (fun j => ⟨j, User.zero⟩)))
        p sz (s.jobs.filter (fun j => j.CreatedBy = c.user_id)).length) := by
  have hp1 : 1 ≤ p := by
    have := paging_page_ge c
    rw [hp] at this
    exact_mod_cast this
  have hoff : (paging c).offset = ((p : Int) - 1) * (sz : Int) := by
    rw [paging_offset, hp, hsz]
    apply wrap64_of_range
    · have : (0 : Int) ≤ (p : Int) - 1 := by omega
      positivity
    · have : ((p : Int) - 1) * (sz : Int) = (((p - 1) * sz : Nat) : Int) := by
        push_cast [Nat.cast_sub hp1]
        ring
      rw [this]
      exact_mod_cast hrange
  unfold GetMyJobs
  simp only [hoff, hp, hsz, offsetLimit_in_range _ _ _ hp1]

/-- Pagination of the unfiltered job listing is consistent as long as the
offset `(page - 1) * pageSize` stays below `2^63`: over a store whose jobs have
distinct identifiers, and for requests `ctx p` that ask for the pages
`p = 1 .. P` of one size, two different pages share no job identifier, every
page reports the number of jobs as `total_size`, and the pages
`1 .. ceil(N/sz)` together list every job exactly once, in order. -/
theorem BrowseJobs_pages_in_range (env : Env) (s : Store) (sz P : Nat)
    (hk : (s.jobs.map Job.ID).Nodup)
    (ctx : Nat → Ctx)
    (hf : ∀ p, (ctx p).query "title" = none ∧ (ctx p).query "location" = none ∧
      (ctx p).query "company_name" = none)
    (hpage : ∀ p, 1 ≤ p → p ≤ P →
      (paging (ctx p)).page = p ∧ (paging (ctx p)).pageSize = sz)
    (hsz : 1 ≤ sz) :
    (∀ p q, 1 ≤ p → p < q → q ≤ P → (q - 1) * sz < 2 ^ 63 →
      List.Disjoint (BrowseJobs env (ctx p) s).2.jobIDs (BrowseJobs env (ctx q) s).2.jobIDs) ∧
    (∀ p, 1 ≤ p → p ≤ P → (p - 1) * sz < 2 ^ 63 →
      (BrowseJobs env (ctx p) s).2.totalSize = some (s.jobs.length : Int)) ∧
    (s.jobs.length < 2 ^ 63 → (s.jobs.length + sz - 1) / sz ≤ P →
      ((List.range ((s.jobs.length + sz - 1) / sz)).map
        (fun i => (BrowseJobs env (ctx (i + 1)) s).2.jobIDs)).flatten = s.jobs.map Job.ID) := by
  have hB : ∀ p, 1 ≤ p → p ≤ P → (p - 1) * sz < 2 ^ 63 →
      (BrowseJobs env (ctx p) s).2.jobIDs = pageRows (s.jobs.map Job.ID) p sz ∧
      (BrowseJobs env (ctx p) s).2.totalSize = some (s.jobs.length : Int) := by
    intro p hp hpP hr
    rw [BrowseJobs_unfiltered env (ctx p) s p sz (hf p).1 (hf p).2.1 (hf p).2.2
      (hpage p hp hpP).1 (hpage p hp hpP).2 hr]
    constructor
    · simp [Response.jobIDs, okPage, pageRows, List.map_take, List.map_drop, Function.comp_def]
    · rfl
  refine ⟨?_, fun p hp hpP hr => (hB p hp hpP hr).2, ?_⟩
  · intro p q hp hpq hqP hr
    have hrp : (p - 1) * sz < 2 ^ 63 :=
      lt_of_le_of_lt (Nat.mul_le_mul_right sz (by omega)) hr
    rw [(hB p hp (by omega) hrp).1, (hB q (by omega) hqP hr).1]
    exact pageRows_disjoint _ hk p q sz hp hpq
  · intro hN hP
    have hpages : ∀ i ∈ List.range ((s.jobs.length + sz - 1) / sz),
        (BrowseJobs env (ctx (i + 1)) s).2.jobIDs = pageRows (s.jobs.map Job.ID) (i + 1) sz := by
      intro i hi
      have hi2 : i < (s.jobs.length + sz - 1) / sz := List.mem_range.mp hi
      have h1 : (i + 1) * sz ≤ (s.jobs.length + sz - 1) / sz * sz :=
        Nat.mul_le_mul_right sz hi2
      have h2 : (s.jobs.length + sz - 1) / sz * sz ≤ s.jobs.length + sz - 1 :=
        Nat.div_mul_le_self _ _
      have h3 : (i + 1) * sz = i * sz + sz := Nat.succ_mul i sz
      have h4 : (i + 1 - 1) * sz = i * sz := by rw [Nat.add_sub_cancel]
      exact (hB (i + 1) (by omega) (by omega) (by omega)).1
    rw [List.map_congr_left hpages]
    have := pageRows_all (s.jobs.map Job.ID) sz hsz
    rw [List.length_map] at this
    exact this

/-- The three example jobs in pages of two: page 1 and page 2 share no job and
together list the three identifiers. -/
theorem BrowseJobs_pages_in_range_example :
    List.Disjoint (BrowseJobs exEnv (exPageCtx 1) exStore3).2.jobIDs
      (BrowseJobs exEnv (exPageCtx 2) exStore3).2.jobIDs ∧
    ((List.range 2).map (fun i => (BrowseJobs exEnv (exPageCtx (i + 1)) exStore3).2.jobIDs)).flatten
      = [10, 11, 12] := by
  have hpage : ∀ p, 1 ≤ p → p ≤ 2 →
      (paging (exPageCtx p)).page = p ∧ (paging (exPageCtx p)).pageSize = (2 : Nat) := by
    intro p h1 h2
    interval_cases p <;> exact ⟨by decide, by decide⟩
  have h := BrowseJobs_pages_in_range exEnv exStore3 2 2 (by decide) exPageCtx
    (fun p => ⟨rfl, rfl, rfl⟩) hpage (by decide)
  exact ⟨h.1 1 2 (by decide) (by decide) (by decide) (by norm_num),
    h.2.2 (by decide) (by decide)⟩

/-! ## A successful apply request -/

theorem paging_default (c : Ctx) (h1 : c.query "page" = none) (h2 : c.query "page_size" = none) :
    paging c = ⟨1, 10, 0⟩ := by
  have ha : Atoi "1" = (1, none) := by decide
  have hb : Atoi "10" = (10, none) := by decide
  have hw : wrap64 0 = 0 := by decide
  simp [paging, Ctx.DefaultQuery, h1, h2, ha, hb, hw]

theorem ApplyForJob_created (env : Env) (c : Ctx) (body : Option ApplyJobRequest) (s : Store)
    (h : (ApplyForJob env c body s).2.status = 201) :
    ∃ (jobUUID : UUID) (req : ApplyJobRequest) (a1 : Application),
      env.uuidParse c.id = some jobUUID ∧ body = some req ∧
      (ApplyForJob env c body s).1 = { s with applications := s.applications ++ [a1] } ∧
      s.firstApplication a1.ID = none ∧
      a1.JobID = jobUUID ∧ a1.ApplicantID = c.user_id ∧ a1.Status = StatusApplied ∧
      a1.ResumeLink = req.ResumeLink := by
  unfold ApplyForJob at h ⊢
  split at h
  · simp [fail] at h
  · rename_i jobUUID hid
    split at h
    · simp [fail] at h
    · rename_i req
      split at h
      · simp [fail] at h
      · rename_i hv
        simp only at h
        split at h
        · simp [fail] at h
        · rename_i j hj
          split at h
          · simp [fail] at h
          · rename_i hnone
            split at h
            · simp [fail] at h
            · rename_i s1 a1 hc
              obtain ⟨h1, h2, h3, h4, h5, h6⟩ := createApplication_some _ _ _ _ _ _ _ hc
              refine ⟨jobUUID, req, a1, ?_, rfl, ?_, h2, h5, h4, h3, h6⟩
              · simp [hid]
              · have hv2 : ApplyJobRequest.ValidateStruct env req = [] := by simpa using hv
                simp [hid, hv2, hj, hnone, hc, h1]

/-! ## The applicant's listing under a status update -/

theorem offsetLimit_map {α β : Type} (f : α → β) (offset limit : Int) (rows : List α) :
    (offsetLimit offset limit rows).map f = offsetLimit offset limit (rows.map f) := by
  unfold offsetLimit
  simp only
  split <;> split <;> simp [List.map_take, List.map_drop]

theorem offsetLimit_all {α : Type} (offset limit : Int) (rows : List α)
    (ho : offset ≤ 0) (hl : (rows.length : Int) ≤ limit) : offsetLimit offset limit rows = rows := by
  unfold offsetLimit
  have h1 : ¬ offset > 0 := by omega
  have h2 : limit ≥ 0 := by omega
  simp only [h1, h2, if_false, if_true]
  apply List.take_of_length_le
  omega

theorem GetMyApplications_pages (c : Ctx) (s : Store) :
    GetMyApplications c s =
      (s, okPage "Applications retrieved successfully"
        (Payload.myApplications
          (offsetLimit (paging c).offset (paging c).pageSize (s.myApplications c.user_id)))
        (paging c).page (paging c).pageSize ((s.myApplications c.user_id).length : Int)) := by
  unfold GetMyApplications Store.myApplications
  simp only [← offsetLimit_map, List.length_map]
  rfl

theorem myApplicationEntry_ID (s : Store) (app : Application) :
    (s.myApplicationEntry app).ID = app.ID := by
  unfold Store.myApplicationEntry
  split <;> rfl

theorem myApplicationEntry_saved (s : Store) (now : Time) (b x : Application) :
    (s.saveApplication now b).myApplicationEntry x = s.myApplicationEntry x := rfl

theorem myApplicationEntry_status (s : Store) (x : Application) (st : ApplicationStatus)
    (now : Time) :
    s.myApplicationEntry { x with Status := st, UpdatedAt := now } =
      { s.myApplicationEntry x with Status := st } := by
  unfold Store.myApplicationEntry
  cases s.firstJob x.JobID <;> rfl

theorem saveApplication_myApplications (s : Store) (now : Time) (a : Application)
    (st : ApplicationStatus) (X : UUID)
    (hk : s.applicationKeysUnique) (ha : a ∈ s.applications) :
    (s.saveApplication now { a with Status := st }).myApplications X =
      (s.myApplications X).map (setEntryStatus a.ID st) := by
  have huniq : ∀ x ∈ s.applications, x.ID = a.ID → x = a :=
    fun x hx hxa => List.inj_on_of_nodup_map hk hx ha hxa
  unfold Store.myApplications
  have happs : (s.saveApplication now { a with Status := st }).applications =
      s.applications.map (fun x =>
        if x.ID = a.ID then { a with Status := st, UpdatedAt := now } else x) := rfl
  rw [happs, List.filter_map, List.map_map, List.map_map]
  have hfil : s.applications.filter
      ((fun x : Application => decide (x.ApplicantID = X)) ∘
        fun x => if x.ID = a.ID then { a with Status := st, UpdatedAt := now } else x) =
      s.applications.filter (fun x => decide (x.ApplicantID = X)) := by
    apply List.filter_congr
    intro x hx
    by_cases hxa : x.ID = a.ID
    · have := huniq x hx hxa
      subst this
      simp
    · simp [hxa]
  rw [hfil]
  apply List.map_congr_left
  intro x hx
  have hx2 : x ∈ s.applications := (List.mem_filter.mp hx).1
  simp only [Function.comp_apply, myApplicationEntry_saved]
  by_cases hxa : x.ID = a.ID
  · have := huniq x hx2 hxa
    subst this
    simp only [if_true, setEntryStatus, myApplicationEntry_ID, myApplicationEntry_status]
  · simp only [hxa, if_false, setEntryStatus, myApplicationEntry_ID]

/-! ## A status update without the backing job -/

theorem paging_page_eq (c : Ctx) (v : String) (n : Int) (e : Option NumError)
    (hq : c.query "page" = some v) (ha : Atoi v = (n, e)) : (paging c).page = max n 1 := by
  simp only [paging, Ctx.DefaultQuery, hq, ha, Option.getD_some]
  split <;> omega

theorem paging_pageSize_eq (c : Ctx) (v : String) (n : Int) (e : Option NumError)
    (hq : c.query "page_size" = some v) (ha : Atoi v = (n, e)) :
    (paging c).pageSize = if n < 1 then 10 else n := by
  simp only [paging, Ctx.DefaultQuery, hq, ha, Option.getD_some]

theorem paging_offset_in_range (c : Ctx)
    (h : ((paging c).page - 1) * (paging c).pageSize < 2 ^ 63) :
    (paging c).offset = ((paging c).page - 1) * (paging c).pageSize ∧ 0 ≤ (paging c).offset := by
  have h1 := paging_page_ge c
  have h2 := paging_pageSize_ge c
  have h0 : 0 ≤ ((paging c).page - 1) * (paging c).pageSize :=
    Int.mul_nonneg (by omega) (by omega)
  rw [paging_offset, wrap64_of_range _ h0 h]
  exact ⟨rfl, h0⟩

/-! ## `LIKE` with a pattern free of metacharacters -/

theorem likeMatch_nil (t : List Char) : likeMatch [] t = t.isEmpty := rfl

theorem likeMatch_cons (c : Char) (p t : List Char) :
    likeMatch (c :: p) t =
      if c = '%' then t.tails.any (fun u => likeMatch p u)
      else if c = '_' then
        match t with
        | [] => false
        | _ :: t1 => likeMatch p t1
      else if c = '\\' then
        match p, t with
        | e :: p1, x :: t1 => x = e && likeMatch p1 t1
        | _, _ => false
      else
        match t with
        | [] => false
        | x :: t1 => x = c && likeMatch p t1 := by
  cases p <;> cases t <;> rfl

theorem likeMatch_percent (p t : List Char) :
    likeMatch ('%' :: p) t = t.tails.any (fun u => likeMatch p u) := by
  rw [likeMatch_cons]; rfl

theorem likeMatch_plain (c : Char) (p t : List Char) (hc : isLikeMeta c = false) :
    likeMatch (c :: p) t =
      match t with
      | [] => false
      | x :: t1 => x = c && likeMatch p t1 := by
  simp only [isLikeMeta, Bool.decide_or, Bool.or_eq_false_iff, decide_eq_false_iff_not] at hc
  rw [likeMatch_cons, if_neg hc.1, if_neg hc.2.1, if_neg hc.2.2]

theorem likeMatch_literal (p t : List Char) (hp : ∀ c ∈ p, isLikeMeta c = false) :
    likeMatch (p ++ ['%']) t = true ↔ p <+: t := by
  induction p generalizing t with
  | nil =>
    simp only [List.nil_append, likeMatch_percent, List.nil_prefix, iff_true]
    rw [List.any_eq_true]
    exact ⟨[], by simp, by rw [likeMatch_nil]; rfl⟩
  | cons c p ih =>
    have hc := hp c (List.mem_cons_self c p)
    have hp2 : ∀ x ∈ p, isLikeMeta x = false := fun x hx => hp x (List.mem_cons_of_mem c hx)
    rw [List.cons_append, likeMatch_plain c _ t hc]
    cases t with
    | nil => simp
    | cons x t1 =>
      simp only [Bool.and_eq_true, decide_eq_true_eq, ih t1 hp2, List.cons_prefix_cons]
      constructor
      · rintro ⟨h1, h2⟩; exact ⟨h1.symm, h2⟩
      · rintro ⟨h1, h2⟩; exact ⟨h1.symm, h2⟩

theorem likeMatch_contains (p t : List Char) (hp : ∀ c ∈ p, isLikeMeta c = false) :
    likeMatch ('%' :: (p ++ ['%'])) t = true ↔ p <:+: t := by
  rw [likeMatch_percent, List.any_eq_true, List.infix_iff_prefix_suffix]
  constructor
  · rintro ⟨u, hu, hm⟩
    exact ⟨u, (likeMatch_literal p u hp).mp hm, (List.mem_tails u t).mp hu⟩
  · rintro ⟨u, hpu, hut⟩
    exact ⟨u, (List.mem_tails u t).mpr hut, (likeMatch_literal p u hp).mpr hpu⟩

theorem lowerLike_literal (env : Env) (filter column : String)
    (h : ∀ c ∈ (env.ToLower filter).toList, isLikeMeta c = false) :
    lowerLike env filter column = true ↔
      (env.ToLower filter).toList <:+: (env.sqlLower column).toList := by
  unfold lowerLike
  have : ("%" ++ env.ToLower filter ++ "%").toList =
      '%' :: ((env.ToLower filter).toList ++ ['%']) := by
    simp [String.toList, String.data_append]
  rw [this]
  exact likeMatch_contains _ _ h

theorem mem_company_join (env : Env) (companyName : String) (s : Store) (rows : List Job)
    (hc : ∀ c ∈ (env.ToLower companyName).toList, isLikeMeta c = false) (j : Job) :
    j ∈ rows.flatMap (fun j =>
        (s.users.filter (fun u => j.CreatedBy = u.ID ∧ lowerLike env companyName u.Name)).map
          (fun _ => j)) ↔
      j ∈ rows ∧ ∃ u ∈ s.users, j.CreatedBy = u.ID ∧
        (env.ToLower companyName).toList <:+: (env.sqlLower u.Name).toList := by
  simp only [List.mem_flatMap, List.mem_map, List.mem_filter, Bool.decide_and, Bool.and_eq_true,
    decide_eq_true_eq, Bool.decide_eq_true, lowerLike_literal env _ _ hc]
  constructor
  · rintro ⟨x, hx, u, ⟨hu, h1, h2⟩, rfl⟩
    exact ⟨hx, u, hu, h1, h2⟩
  · rintro ⟨hx, u, hu, h1, h2⟩
    exact ⟨j, hx, u, ⟨hu, h1, h2⟩, rfl⟩

theorem browseQuery_literal (env : Env) (title location companyName : String) (s : Store)
    (ht : ∀ c ∈ (env.ToLower title).toList, isLikeMeta c = false)
    (hl : ∀ c ∈ (env.ToLower location).toList, isLikeMeta c = false)
    (hc : ∀ c ∈ (env.ToLower companyName).toList, isLikeMeta c = false) (j : Job) :
    j ∈ browseQuery env title location companyName s ↔
      j ∈ s.jobs ∧
      (title = "" ∨ (env.ToLower title).toList <:+: (env.sqlLower j.Title).toList) ∧
      (location = "" ∨ (env.ToLower location).toList <:+: (env.sqlLower j.Location).toList) ∧
      (companyName = "" ∨ ∃ u ∈ s.users, j.CreatedBy = u.ID ∧
        (env.ToLower companyName).toList <:+: (env.sqlLower u.Name).toList) := by
  have hrows : j ∈ (let rows := s.jobs
      let rows :=
        if title ≠ "" then rows.filter (fun j => lowerLike env title j.Title) else rows
      if location ≠ "" then rows.filter (fun j => lowerLike env location j.Location) else rows) ↔
      j ∈ s.jobs ∧
      (title = "" ∨ (env.ToLower title).toList <:+: (env.sqlLower j.Title).toList) ∧
      (location = "" ∨ (env.ToLower location).toList <:+: (env.sqlLower j.Location).toList) := by
    by_cases h1 : title = "" <;> by_cases h2 : location = "" <;>
      simp only [h1, h2, ne_eq, not_true_eq_false, not_false_eq_true, if_true, if_false,
        List.mem_filter, lowerLike_literal env _ _ ht, lowerLike_literal env _ _ hl, true_or,
        false_or, and_true] <;>
      tauto
  unfold browseQuery
  by_cases h3 : companyName = ""
  · simp only [h3, ne_eq, not_true_eq_false, if_false, true_or, and_true]
    exact hrows
  · simp only [h3, ne_eq, not_false_eq_true, if_true, false_or]
    rw [mem_company_join env companyName s _ hc j, hrows]
    tauto

/-! ## `strconv.Atoi` on signed numerals -/

theorem ParseInt_unsigned (ds : List Char) (hne : ds ≠ []) (hd : ∀ c ∈ ds, isDecimal c = true) :
    (ParseInt ds).1 = min (decimalValue ds : Int) (2 ^ 63 - 1) := by
  by_cases hv : decimalValue ds < 2 ^ 63
  · have h := Atoi_digits ds hne hd hv
    simp only [Atoi, String.toList] at h
    rw [h]
    simp only
    omega
  · have h := Atoi_digits_saturates ds hd (by omega)
    simp only [Atoi, String.toList] at h
    rw [h]
    simp only
    omega

theorem ParseInt_plus (ds : List Char) (hne : ds ≠ []) (hd : ∀ c ∈ ds, isDecimal c = true) :
    (ParseInt ('+' :: ds)).1 = min (decimalValue ds : Int) (2 ^ 63 - 1) := by
  have hU := ParseUint_digits ds hne hd
  have hneg : (decide ('+' = '-')) = false := by decide
  by_cases h64 : decimalValue ds ≤ 2 ^ 64 - 1
  · rw [if_pos h64] at hU
    simp only [ParseInt, true_or, if_true, hU, hneg]
    simp only [Bool.not_false, true_and, Bool.false_eq_true, false_and, if_false]
    split_ifs with h63 <;> simp only <;> omega
  · rw [if_neg h64] at hU
    simp only [ParseInt, true_or, if_true, hU, hneg]
    simp
    omega

theorem ParseInt_minus (ds : List Char) (hne : ds ≠ []) (hd : ∀ c ∈ ds, isDecimal c = true) :
    (ParseInt ('-' :: ds)).1 = max (-(decimalValue ds : Int)) (-(2 ^ 63)) := by
  have hU := ParseUint_digits ds hne hd
  by_cases h64 : decimalValue ds ≤ 2 ^ 64 - 1
  · rw [if_pos h64] at hU
    simp only [ParseInt, or_true, if_true, hU]
    simp only [decide_True, Bool.not_true, Bool.false_eq_true, false_and, if_false, true_and,
      if_true]
    split_ifs with h63 <;> simp only <;> omega
  · rw [if_neg h64] at hU
    simp only [ParseInt, or_true, if_true, hU]
    simp
    omega

/-- The value `strconv.Atoi` returns for a decimal numeral with an optional
sign: the integer it denotes, brought into the range of `int`. -/
theorem Atoi_numeral (sign ds : List Char)
    (hs : sign = [] ∨ sign = ['+'] ∨ sign = ['-'])
    (hne : ds ≠ []) (hd : ∀ c ∈ ds, isDecimal c = true) :
    (Atoi (String.mk (sign ++ ds))).1 =
      max (-(2 ^ 63)) (min (numeralValue sign ds) (2 ^ 63 - 1)) := by
  simp only [Atoi, String.toList]
  rcases hs with h | h | h
  · subst h
    rw [List.nil_append, ParseInt_unsigned ds hne hd]
    simp only [numeralValue, List.nil_eq, reduceCtorEq, if_false]
    have : (0 : Int) ≤ decimalValue ds := Int.natCast_nonneg _
    omega
  · subst h
    rw [List.singleton_append, ParseInt_plus ds hne hd]
    have hsg : ¬ (['+'] = ['-']) := by decide
    simp only [numeralValue, hsg, if_false]
    have : (0 : Int) ≤ decimalValue ds := Int.natCast_nonneg _
    omega
  · subst h
    rw [List.singleton_append, ParseInt_minus ds hne hd]
    simp only [numeralValue, if_true]
    omega

/-! ## The claims -/

/-- C1. Duplicate rule of `ApplyForJob`: when the store holds an application
of the acting applicant `c.user_id` for the existing job the path names, a
further well-formed apply request (the identifier parses, the body binds and
passes validation) is answered 409 Conflict and the store is returned as it
was; nothing is assumed about the other applications in the store. -/
theorem ApplyForJob_duplicate_conflict (env : Env) (c : Ctx) (req : ApplyJobRequest) (s : Store)
    (jobUUID : UUID) (J : Job) (a : Application)
    (hid : env.uuidParse c.id = some jobUUID)
    (hvalid : req.ValidateStruct env = [])
    (hJ : s.firstJob jobUUID = some J)
    (ha : a ∈ s.applications) (haA : a.ApplicantID = c.user_id) (haJ : a.JobID = jobUUID) :
    ApplyForJob env c (some req) s =
      (s, fail 409 "You have already applied to this job"
        [ErrText.lit "Duplicate application"]) := by
  have hex := firstApplicationOf_isSome s a ha
  rw [haA, haJ] at hex
  obtain ⟨b, hb⟩ := Option.isSome_iff_exists.mp hex
  simp [ApplyForJob, hid, hvalid, hJ, hb]

theorem ApplyForJob_duplicate_conflict_witness :
    ApplyForJob exEnv ⟨exJobParam, noQuery, 3, 21, 9⟩ (some ⟨"https://x.example/cv.pdf", "Hello"⟩)
        exStore =
      (exStore,
        fail 409 "You have already applied to this job" [ErrText.lit "Duplicate application"]) :=
  ApplyForJob_duplicate_conflict exEnv ⟨exJobParam, noQuery, 3, 21, 9⟩
    ⟨"https://x.example/cv.pdf", "Hello"⟩ exStore 10 exJob exApplication
    (by decide) (by decide) (by decide) (by decide) (by decide) (by decide)

/-- C2. Cross-company isolation: when the path names a job `J` of the store and
the actor is not `J.CreatedBy`, a well-formed `UpdateJob`, `DeleteJob` and
`GetJobApplications` are each answered 403 Forbidden with `object` null (so no
application data), and the store (the job and its applications included) is
returned as it was. -/
theorem cross_company_isolation (env : Env) (c : Ctx) (s : Store) (jobUUID : UUID) (J : Job)
    (hid : env.uuidParse c.id = some jobUUID)
    (hJ : s.firstJob jobUUID = some J)
    (hne : c.user_id ≠ J.CreatedBy) :
    (∀ req : UpdateJobRequest, req.ValidateStruct = [] →
        UpdateJob env c (some req) s = (s, fail 403 "Unauthorized access" [])) ∧
      DeleteJob env c s = (s, fail 403 "Unauthorized access" []) ∧
      GetJobApplications env c s = (s, fail 403 "Unauthorized access" []) ∧
      (fail 403 "Unauthorized access" []).Object = Payload.null := by
  have hne2 : ¬ J.CreatedBy = c.user_id := fun h => hne h.symm
  refine ⟨?_, ?_, ?_, rfl⟩
  · intro req hreq
    simp [UpdateJob, hid, hreq, hJ, hne2]
  · simp [DeleteJob, hid, hJ, hne2]
  · simp [GetJobApplications, hid, hJ, hne2]

theorem cross_company_isolation_witness :
    UpdateJob exEnv ⟨exJobParam, noQuery, 2, 30, 9⟩
        (some ⟨"Frontend Engineer", "Builds and runs the frontend.", ""⟩) exStore =
      (exStore, fail 403 "Unauthorized access" []) ∧
    DeleteJob exEnv ⟨exJobParam, noQuery, 2, 30, 9⟩ exStore =
      (exStore, fail 403 "Unauthorized access" []) ∧
    GetJobApplications exEnv ⟨exJobParam, noQuery, 2, 30, 9⟩ exStore =
      (exStore, fail 403 "Unauthorized access" []) :=
  have h := cross_company_isolation exEnv ⟨exJobParam, noQuery, 2, 30, 9⟩ exStore 10 exJob
    (by decide) (by decide) (by decide)
  ⟨h.1 ⟨"Frontend Engineer", "Builds and runs the frontend.", ""⟩ (by decide), h.2.1, h.2.2.1⟩

/-- C3. Role gate: a request to a route registered with `RequireRole(R)` whose
token is accepted by `AuthMiddleware` with a role claim other than `R` is
answered 403 Forbidden by the middleware and the store is returned as it was
(the handler is not reached); the response is the same for every other store,
path identifier, query and body. The routes with `R = company` are create,
update and delete job, my-jobs, a job's applications and update application
status; those with `R = applicant` are browse jobs, apply and my-applications. -/
theorem role_gate (env : Env) (req : Request) (s : Store) (claims : Claims) (R : UserRole)
    (hauth : AuthMiddleware env req.Authorization = Except.ok claims)
    (hR : req.route.role = some R) (hrole : claims.Role ≠ R) :
    serve env req s = (s, fail 403 "Insufficient permissions" []) ∧
    (∀ (req2 : Request) (s2 : Store) (claims2 : Claims),
        req2.route = req.route →
        AuthMiddleware env req2.Authorization = Except.ok claims2 → claims2.Role ≠ R →
        (serve env req2 s2).1 = s2 ∧ (serve env req2 s2).2 = (serve env req s).2) ∧
    (∀ r : Route, r.role = some RoleCompany ↔
        r ∈ [Route.CreateJob, Route.UpdateJob, Route.DeleteJob, Route.GetMyJobs,
             Route.GetJobApplications, Route.UpdateApplicationStatus]) ∧
    (∀ r : Route, r.role = some RoleApplicant ↔
        r ∈ [Route.BrowseJobs, Route.ApplyForJob, Route.GetMyApplications]) := by
  refine ⟨serve_wrong_role env req s claims R hauth hR hrole, ?_, ?_, ?_⟩
  · intro req2 s2 claims2 hroute hauth2 hrole2
    rw [serve_wrong_role env req s claims R hauth hR hrole,
      serve_wrong_role env req2 s2 claims2 R hauth2 (hroute ▸ hR) hrole2]
    exact ⟨rfl, rfl⟩
  · intro r; cases r <;> simp [Route.role, RoleCompany, RoleApplicant]
  · intro r; cases r <;> simp [Route.role, RoleCompany, RoleApplicant]

theorem role_gate_witness :
    serve exEnv ⟨Route.CreateJob, "Bearer token-applicant-3", "", noQuery, exBody, 30, 9⟩ exStore =
      (exStore, fail 403 "Insufficient permissions" []) :=
  (role_gate exEnv ⟨Route.CreateJob, "Bearer token-applicant-3", "", noQuery, exBody, 30, 9⟩
    exStore ⟨3, "applicant"⟩ RoleCompany (by rfl) (by decide) (by decide)).1

/-- C4. Transitive ownership of status updates: for an application `a` of the
store whose target job `j` exists and a status `st` among the five values,
`UpdateApplicationStatus` answers 200 and stores `a` with status `st` exactly
when the actor is `j.CreatedBy`; for any other actor (the applicant of `a`
included) the answer is 403 Forbidden and the store is returned as it was. -/
theorem status_update_ownership (env : Env) (c : Ctx) (s : Store) (appUUID : UUID)
    (a : Application) (j : Job) (st : ApplicationStatus)
    (hid : env.uuidParse c.id = some appUUID)
    (ha : s.firstApplication appUUID = some a)
    (hj : s.firstJob a.JobID = some j)
    (hst : st ∈ validStatuses) :
    (((UpdateApplicationStatus env c (some ⟨st⟩) s).2.status = 200 ∧
        (UpdateApplicationStatus env c (some ⟨st⟩) s).1.firstApplication appUUID =
          some { a with Status := st, UpdatedAt := c.now }) ↔ c.user_id = j.CreatedBy) ∧
    (c.user_id ≠ j.CreatedBy →
      UpdateApplicationStatus env c (some ⟨st⟩) s = (s, fail 403 "Unauthorized" [])) := by
  have hpre : (s.preloadJob a.JobID).CreatedBy = j.CreatedBy := by
    simp [Store.preloadJob, hj]
  have hno : c.user_id ≠ j.CreatedBy →
      UpdateApplicationStatus env c (some ⟨st⟩) s = (s, fail 403 "Unauthorized" []) := by
    intro hne
    exact UpdateApplicationStatus_not_owner env c s appUUID a st hid ha
      (by rw [hpre]; exact fun h => hne h.symm) hst
  refine ⟨⟨?_, ?_⟩, hno⟩
  · rintro ⟨h200, -⟩
    by_contra hne
    rw [hno hne] at h200
    simp [fail] at h200
  · intro hown
    rw [UpdateApplicationStatus_owner env c s appUUID a st hid ha (by rw [hpre, hown]) hst]
    exact ⟨rfl, saveApplication_first s c.now a { a with Status := st } appUUID
      (firstApplication_key s appUUID a ha).1 ha⟩

theorem status_update_ownership_witness :
    UpdateApplicationStatus exEnv ⟨exApplicationParam, noQuery, 3, 30, 9⟩ (some ⟨"Hired"⟩)
        exStore = (exStore, fail 403 "Unauthorized" []) ∧
    (UpdateApplicationStatus exEnv ⟨exApplicationParam, noQuery, 1, 30, 9⟩ (some ⟨"Hired"⟩)
        exStore).1.firstApplication 20 =
      some { exApplication with Status := "Hired", UpdatedAt := 9 } :=
  ⟨(status_update_ownership exEnv ⟨exApplicationParam, noQuery, 3, 30, 9⟩ exStore 20
      exApplication exJob "Hired" (by decide) (by decide) (by decide) (by decide)).2 (by decide),
   ((status_update_ownership exEnv ⟨exApplicationParam, noQuery, 1, 30, 9⟩ exStore 20
      exApplication exJob "Hired" (by decide) (by decide) (by decide) (by decide)).1.mpr
        (by decide)).2⟩

/-- C5. No ordering in the status lifecycle: whatever the current status of an
application (a terminal one included), an update by the owner of its target
job to any of the five values answers 200 and leaves the application with
exactly that status; setting `Hired` and then `Applied` both answer 200 and the
stored status is then `Applied`. -/
theorem status_no_ordering (env : Env) (c : Ctx) (s : Store) (appUUID : UUID)
    (a : Application) (j : Job) (st : ApplicationStatus)
    (hid : env.uuidParse c.id = some appUUID)
    (ha : s.firstApplication appUUID = some a)
    (hj : s.firstJob a.JobID = some j)
    (hown : c.user_id = j.CreatedBy)
    (hst : st ∈ validStatuses) :
    ((UpdateApplicationStatus env c (some ⟨st⟩) s).2.status = 200 ∧
      (UpdateApplicationStatus env c (some ⟨st⟩) s).2.Success = true ∧
      (UpdateApplicationStatus env c (some ⟨st⟩) s).1.firstApplication appUUID =
        some { a with Status := st, UpdatedAt := c.now }) ∧
    (∀ c2 : Ctx, c2.id = c.id → c2.user_id = c.user_id →
      (UpdateApplicationStatus env c (some ⟨StatusHired⟩) s).2.status = 200 ∧
      (UpdateApplicationStatus env c2 (some ⟨StatusApplied⟩)
        (UpdateApplicationStatus env c (some ⟨StatusHired⟩) s).1).2.status = 200 ∧
      (UpdateApplicationStatus env c2 (some ⟨StatusApplied⟩)
        (UpdateApplicationStatus env c (some ⟨StatusHired⟩) s).1).1.firstApplication appUUID =
        some { a with Status := StatusApplied, UpdatedAt := c2.now }) := by
  have hkey := (firstApplication_key s appUUID a ha).1
  have hpre : (s.preloadJob a.JobID).CreatedBy = c.user_id := by
    simp [Store.preloadJob, hj, hown]
  refine ⟨?_, ?_⟩
  · rw [UpdateApplicationStatus_owner env c s appUUID a st hid ha hpre hst]
    exact ⟨rfl, rfl, saveApplication_first s c.now a { a with Status := st } appUUID hkey ha⟩
  · intro c2 hid2 hu2
    have hH : StatusHired ∈ validStatuses := by simp [validStatuses]
    have hA : StatusApplied ∈ validStatuses := by simp [validStatuses]
    rw [UpdateApplicationStatus_owner env c s appUUID a StatusHired hid ha hpre hH]
    have ha1 := saveApplication_first s c.now a { a with Status := StatusHired } appUUID hkey ha
    have hpre1 : ((s.saveApplication c.now { a with Status := StatusHired }).preloadJob
        ({ a with Status := StatusHired, UpdatedAt := c.now } : Application).JobID).CreatedBy
          = c2.user_id := by
      rw [hu2, ← hpre]; rfl
    rw [UpdateApplicationStatus_owner env c2 _ appUUID _ StatusApplied (hid2 ▸ hid) ha1 hpre1 hA]
    refine ⟨rfl, rfl, ?_⟩
    exact saveApplication_first _ c2.now _ _ appUUID hkey ha1

theorem status_no_ordering_witness :
    (UpdateApplicationStatus exEnv ⟨exApplicationParam, noQuery, 1, 30, 9⟩ (some ⟨"Reviewed"⟩)
        ⟨exStore.users, exStore.jobs,
          [{ exApplication with Status := "Rejected" }]⟩).1.firstApplication 20 =
      some { exApplication with Status := "Reviewed", UpdatedAt := 9 } :=
  (status_no_ordering exEnv ⟨exApplicationParam, noQuery, 1, 30, 9⟩
    ⟨exStore.users, exStore.jobs, [{ exApplication with Status := "Rejected" }]⟩ 20
    { exApplication with Status := "Rejected" } exJob "Reviewed"
    (by decide) (by decide) (by decide) (by decide) (by decide)).1.2.2

/-- C6. Closed status set: `UpdateApplicationStatus` with a status that is not
one of `Applied`, `Reviewed`, `Interview`, `Rejected`, `Hired` (the empty
string included) is answered 400 for every actor and store, as a validation
failure once the identifier parses, and the store is returned as it was.
Consequently a store whose application statuses are all among the five values
stays so under every handler, every sequence of handler invocations and every
sequence of HTTP requests. -/
theorem closed_status_set (env : Env) :
    (∀ (c : Ctx) (s : Store) (st : ApplicationStatus), st ∉ validStatuses →
      (UpdateApplicationStatus env c (some ⟨st⟩) s).1 = s ∧
      (UpdateApplicationStatus env c (some ⟨st⟩) s).2.status = 400 ∧
      (∀ appUUID, env.uuidParse c.id = some appUUID →
        (UpdateApplicationStatus env c (some ⟨st⟩) s).2.Message = "Validation failed")) ∧
    (∀ (route : Route) (c : Ctx) (body : Body) (s : Store),
      s.statusesValid → (handle env route c body s).1.statusesValid) ∧
    (∀ (reqs : List (Route × Ctx × Body)) (s : Store),
      s.statusesValid → (runHandlers env reqs s).statusesValid) ∧
    (∀ (reqs : List Request) (s : Store), s.statusesValid → (run env reqs s).statusesValid) := by
  refine ⟨?_, ?_, ?_, ?_⟩
  · intro c s st hst
    have hv : ¬ (⟨st⟩ : UpdateApplicationStatusRequest).ValidateStruct = [] :=
      fun h => hst ((validateStatus_nil_iff ⟨st⟩).mp h)
    cases hp : env.uuidParse c.id with
    | none => simp [UpdateApplicationStatus, hp, fail]
    | some appUUID => simp [UpdateApplicationStatus, hp, hv, fail]
  · intro route c body s hv
    exact AppsStep_statuses s _ (handle_step env route c body s) hv
  · intro reqs s hv
    exact runHandlers_invariant env Store.statusesValid
      (fun route c body s hv => AppsStep_statuses s _ (handle_step env route c body s) hv) reqs s hv
  · intro reqs s hv
    exact run_invariant env Store.statusesValid
      (fun req s hv => AppsStep_statuses s _ (serve_step env req s) hv) reqs s hv

theorem closed_status_set_witness :
    (UpdateApplicationStatus exEnv ⟨exApplicationParam, noQuery, 1, 30, 9⟩ (some ⟨"Withdrawn"⟩)
        exStore).1 = exStore ∧
    (UpdateApplicationStatus exEnv ⟨exApplicationParam, noQuery, 1, 30, 9⟩ (some ⟨"Withdrawn"⟩)
        exStore).2.status = 400 ∧
    (UpdateApplicationStatus exEnv ⟨exApplicationParam, noQuery, 1, 30, 9⟩ (some ⟨""⟩)
        exStore).2.status = 400 :=
  have h := (closed_status_set exEnv).1 ⟨exApplicationParam, noQuery, 1, 30, 9⟩ exStore
  ⟨(h "Withdrawn" (by decide)).1, (h "Withdrawn" (by decide)).2.1, (h "" (by decide)).2.1⟩

/-- C7. The pages of `BrowseJobs` and `GetMyJobs` overlap when the offset
`(page - 1) * pageSize` leaves the range of Go `int`: for `page_size=4` the
offset of `page=4611686018427387905` is `2^64`, which wraps to 0, so that page
carries the same job as `page=1` while the response reports page number
4611686018427387905. -/
theorem browse_pages_overlap_when_offset_wraps :
    (paging ⟨"", pageQuery "4611686018427387905" "4", 3, 0, 0⟩).offset = 0 ∧
    (BrowseJobs exEnv ⟨"", pageQuery "1" "4", 3, 0, 0⟩ exStore).2 =
      okPage "Jobs retrieved successfully" (Payload.jobs [⟨exJob, exCompany1⟩]) 1 4 1 ∧
    (BrowseJobs exEnv ⟨"", pageQuery "4611686018427387905" "4", 3, 0, 0⟩ exStore).2 =
      okPage "Jobs retrieved successfully" (Payload.jobs [⟨exJob, exCompany1⟩])
        4611686018427387905 4 1 ∧
    (GetMyJobs ⟨"", pageQuery "1" "4", 1, 0, 0⟩ exStore).2 =
      okPage "Jobs retrieved successfully" (Payload.jobs [⟨exJob, User.zero⟩]) 1 4 1 ∧
    (GetMyJobs ⟨"", pageQuery "4611686018427387905" "4", 1, 0, 0⟩ exStore).2 =
      okPage "Jobs retrieved successfully" (Payload.jobs [⟨exJob, User.zero⟩])
        4611686018427387905 4 1 := by
  refine ⟨by decide, by decide, by decide, by decide, by decide⟩

/-- C8, as stated, fails for a numeral above `2^63 - 1`: the query value
`9223372036854775808` is numeric and at least 1, and the reported page number
(or page size) is 9223372036854775807. -/
theorem paging_not_unchanged_beyond_int :
    (∀ ch ∈ "9223372036854775808".toList, isDecimal ch = true) ∧
    decimalValue "9223372036854775808".toList = 9223372036854775808 ∧
    (BrowseJobs exEnv ⟨"", pageQuery "9223372036854775808" "10", 3, 0, 0⟩ exStore).2.page =
      some ⟨9223372036854775807, 10, 1⟩ ∧
    (GetMyJobs ⟨"", pageQuery "1" "9223372036854775808", 1, 0, 0⟩ exStore).2.page =
      some ⟨1, 9223372036854775807, 1⟩ ∧
    (paging ⟨"", pageQuery "9223372036854775808" "10", 3, 0, 0⟩).page ≠
      (decimalValue "9223372036854775808".toList : Int) := by
  refine ⟨by decide, by decide, by decide, by decide, by decide⟩

/-- C8, amended. The paging parameters are clamped, never rejected: for every
query string the page and page size the four listing handlers use and report
are at least 1; an absent `page` gives 1 and an absent `page_size` gives 10; a
value `strconv.Atoi` accepts that is at least 1, in particular a string of
digits denoting a number from 1 to `2^63 - 1`, is used unchanged, and a string
of digits denoting `2^63` or more is replaced by `2^63 - 1`. `BrowseJobs`,
`GetMyJobs` and `GetMyApplications` answer 200 whatever the parameters; the
status of `GetJobApplications` does not depend on the query string and is 200
for the owner of an existing job. -/
theorem paging_clamped (env : Env) (c : Ctx) (s : Store) :
    (1 ≤ (paging c).page ∧ 1 ≤ (paging c).pageSize) ∧
    (c.query "page" = none → (paging c).page = 1) ∧
    (c.query "page_size" = none → (paging c).pageSize = 10) ∧
    (∀ (v : String) (n : Int), c.query "page" = some v → Atoi v = (n, none) → 1 ≤ n →
      (paging c).page = n) ∧
    (∀ (v : String) (n : Int), c.query "page_size" = some v → Atoi v = (n, none) → 1 ≤ n →
      (paging c).pageSize = n) ∧
    (∀ ds : List Char, (∀ ch ∈ ds, isDecimal ch = true) →
      (c.query "page" = some (String.mk ds) →
        (1 ≤ decimalValue ds → decimalValue ds < 2 ^ 63 → (paging c).page = decimalValue ds) ∧
        (2 ^ 63 ≤ decimalValue ds → (paging c).page = 2 ^ 63 - 1)) ∧
      (c.query "page_size" = some (String.mk ds) →
        (1 ≤ decimalValue ds → decimalValue ds < 2 ^ 63 →
          (paging c).pageSize = decimalValue ds) ∧
        (2 ^ 63 ≤ decimalValue ds → (paging c).pageSize = 2 ^ 63 - 1))) ∧
    ((BrowseJobs env c s).2.status = 200 ∧
      ∃ total, (BrowseJobs env c s).2.page = some ⟨(paging c).page, (paging c).pageSize, total⟩) ∧
    ((GetMyJobs c s).2.status = 200 ∧
      ∃ total, (GetMyJobs c s).2.page = some ⟨(paging c).page, (paging c).pageSize, total⟩) ∧
    ((GetMyApplications c s).2.status = 200 ∧
      ∃ total,
        (GetMyApplications c s).2.page = some ⟨(paging c).page, (paging c).pageSize, total⟩) ∧
    ((∀ q : String → Option String,
        (GetJobApplications env { c with query := q } s).2.status =
          (GetJobApplications env c s).2.status) ∧
      ∀ (jobUUID : UUID) (J : Job), env.uuidParse c.id = some jobUUID →
        s.firstJob jobUUID = some J → J.CreatedBy = c.user_id →
        (GetJobApplications env c s).2.status = 200 ∧
        ∃ total, (GetJobApplications env c s).2.page =
          some ⟨(paging c).page, (paging c).pageSize, total⟩) := by
  refine ⟨⟨paging_page_ge c, paging_pageSize_ge c⟩, paging_page_absent c, paging_pageSize_absent c,
    fun v n hq ha hn => paging_page_of c v n none hq ha hn,
    fun v n hq ha hn => paging_pageSize_of c v n none hq ha hn, ?_, ⟨rfl, _, rfl⟩, ⟨rfl, _, rfl⟩,
    ⟨rfl, _, rfl⟩, GetJobApplications_status_query env c s, ?_⟩
  · intro ds hd
    have hne : 1 ≤ decimalValue ds → ds ≠ [] := by
      intro h1 h0
      rw [h0] at h1
      simp [decimalValue, decimalFrom] at h1
    refine ⟨fun hq => ⟨fun h1 h2 => ?_, fun h2 => ?_⟩, fun hq => ⟨fun h1 h2 => ?_, fun h2 => ?_⟩⟩
    · exact paging_page_of c _ _ none hq (Atoi_digits ds (hne h1) hd h2) (by exact_mod_cast h1)
    · exact paging_page_of c _ _ _ hq (Atoi_digits_saturates ds hd h2) (by norm_num)
    · exact paging_pageSize_of c _ _ none hq (Atoi_digits ds (hne h1) hd h2) (by exact_mod_cast h1)
    · exact paging_pageSize_of c _ _ _ hq (Atoi_digits_saturates ds hd h2) (by norm_num)
  · intro jobUUID J hid hJ hown
    rw [GetJobApplications_owner env c s jobUUID J hid hJ hown]
    exact ⟨rfl, _, rfl⟩

theorem paging_clamped_witness :
    (paging ⟨"", pageQuery "7" "25", 3, 0, 0⟩).page = 7 ∧
    (paging ⟨"", pageQuery "7" "25", 3, 0, 0⟩).pageSize = 25 ∧
    (paging ⟨"", pageQuery "abc" "-3", 3, 0, 0⟩).page = 1 ∧
    (paging ⟨"", noQuery, 3, 0, 0⟩).pageSize = 10 :=
  have h := paging_clamped exEnv ⟨"", pageQuery "7" "25", 3, 0, 0⟩ exStore
  have h0 := paging_clamped exEnv ⟨"", noQuery, 3, 0, 0⟩ exStore
  ⟨h.2.2.2.1 "7" 7 (by decide) (by decide) (by decide),
   h.2.2.2.2.1 "25" 25 (by decide) (by decide) (by decide),
   by decide, h0.2.2.1 (by decide)⟩

/-- C9. Malformed identifiers are a validation failure: when the path
parameter does not parse as a UUID, `UpdateJob`, `DeleteJob`, `GetJobDetails`,
`ApplyForJob`, `GetJobApplications` and `UpdateApplicationStatus` answer 400 (not
404) with a fixed response, for every store and every request body, and return
the store as it was. -/
theorem malformed_id_bad_request (env : Env) (c : Ctx) (s : Store)
    (h : env.uuidParse c.id = none) :
    (∀ body, UpdateJob env c body s = (s, fail 400 "Invalid job ID" [])) ∧
    DeleteJob env c s = (s, fail 400 "Invalid job ID" []) ∧
    GetJobDetails env c s = (s, fail 400 "Invalid job ID" []) ∧
    (∀ body, ApplyForJob env c body s = (s, fail 400 "Invalid job ID" [])) ∧
    GetJobApplications env c s = (s, fail 400 "Invalid job ID" []) ∧
    (∀ body, UpdateApplicationStatus env c body s =
      (s, fail 400 "Invalid application ID" [])) := by
  refine ⟨fun body => ?_, ?_, ?_, fun body => ?_, ?_, fun body => ?_⟩
  · simp [UpdateJob, h]
  · simp [DeleteJob, h]
  · simp [GetJobDetails, h]
  · simp [ApplyForJob, h]
  · simp [GetJobApplications, h]
  · simp [UpdateApplicationStatus, h]

theorem malformed_id_bad_request_witness :
    GetJobDetails exEnv ⟨"not-a-uuid", noQuery, 3, 0, 0⟩ exStore =
      (exStore, fail 400 "Invalid job ID" []) :=
  (malformed_id_bad_request exEnv ⟨"not-a-uuid", noQuery, 3, 0, 0⟩ exStore (by decide)).2.2.1

/-- C10. Uniqueness invariant of the application store: from a store whose
applications have distinct primary keys and at most one application per
(applicant, job) pair, every finite sequence of handler invocations, and every
finite sequence of HTTP requests, each run to completion before the next, leads
to a store with at most one application per (applicant, job) pair. -/
theorem application_pairs_unique (env : Env) (s : Store)
    (hk : s.applicationKeysUnique) (hp : s.onePerPair) :
    (∀ reqs : List (Route × Ctx × Body), (runHandlers env reqs s).onePerPair) ∧
    (∀ reqs : List Request, (run env reqs s).onePerPair) := by
  constructor
  · intro reqs
    exact (runHandlers_invariant env (fun s => s.applicationKeysUnique ∧ s.onePerPair)
      (fun route c body s h =>
        ⟨AppsStep_keys s _ (handle_step env route c body s) h.1,
         AppsStep_pairs s _ (handle_step env route c body s) h.1 h.2⟩) reqs s ⟨hk, hp⟩).2
  · intro reqs
    exact (run_invariant env (fun s => s.applicationKeysUnique ∧ s.onePerPair)
      (fun req s h =>
        ⟨AppsStep_keys s _ (serve_step env req s) h.1,
         AppsStep_pairs s _ (serve_step env req s) h.1 h.2⟩) reqs s ⟨hk, hp⟩).2

theorem application_pairs_unique_witness :
    (run exEnv exApplyTwice ⟨exStore.users, exStore.jobs, []⟩).onePerPair ∧
    (run exEnv exApplyTwice ⟨exStore.users, exStore.jobs, []⟩).applications.map pairOf =
      [(3, 10)] :=
  ⟨(application_pairs_unique exEnv ⟨exStore.users, exStore.jobs, []⟩ (by decide) (by decide)).2
    exApplyTwice, by decide⟩

/-- C11. A new application starts in `Applied` and is visible to the job's
owner: when the job `J` the path names has no application in the store and a
well-formed apply request with resume link `req.ResumeLink` is answered 201,
the owner's `GetJobApplications` for `J` on the resulting store, without `page`
and `page_size`, returns exactly one entry, with status `Applied` and that
resume link, as page 1 of size 10 with `total_size` 1. -/
theorem new_application_visible (env : Env) (c c2 : Ctx) (req : ApplyJobRequest) (s : Store)
    (jobUUID : UUID) (J : Job)
    (hid : env.uuidParse c.id = some jobUUID)
    (hJ : s.firstJob jobUUID = some J)
    (hnone : ∀ a ∈ s.applications, a.JobID ≠ jobUUID)
    (h201 : (ApplyForJob env c (some req) s).2.status = 201)
    (hid2 : env.uuidParse c2.id = some jobUUID)
    (hown : c2.user_id = J.CreatedBy)
    (hq1 : c2.query "page" = none) (hq2 : c2.query "page_size" = none) :
    ∃ e : JobApplicationResponse,
      (GetJobApplications env c2 (ApplyForJob env c (some req) s).1).2 =
        okPage "Applications retrieved successfully" (Payload.jobApplications [e]) 1 10 1 ∧
      e.Status = StatusApplied ∧ e.ResumeLink = req.ResumeLink := by
  obtain ⟨jobUUID1, req1, a1, hid1, hreq, hs1, -, hj1, -, hst, hr⟩ :=
    ApplyForJob_created env c (some req) s h201
  have hju : jobUUID1 = jobUUID := by
    rw [hid] at hid1
    exact (Option.some.inj hid1).symm
  have hrq : req1 = req := (Option.some.inj hreq).symm
  subst hju hrq
  rw [hs1]
  have hJ1 : ({ s with applications := s.applications ++ [a1] } : Store).firstJob a1.JobID
      = some J := by
    rw [hj1]; exact hJ
  have hfil : (s.applications ++ [a1]).filter (fun a => a.JobID = a1.JobID) = [a1] := by
    rw [List.filter_append]
    have h0 : s.applications.filter (fun a => a.JobID = a1.JobID) = [] := by
      rw [List.filter_eq_nil_iff]
      intro a ha
      simpa [hj1] using hnone a ha
    rw [h0]
    simp
  rw [GetJobApplications_owner env c2 _ a1.JobID J (hj1 ▸ hid2) hJ1 hown.symm]
  simp only [paging_default c2 hq1 hq2, hfil]
  refine ⟨⟨a1.ID,
    (({ s with applications := s.applications ++ [a1] } : Store).preloadUser a1.ApplicantID).Name,
    a1.ResumeLink, a1.CoverLetter, a1.Status, a1.AppliedAt⟩, ?_, hst, hr⟩
  simp [offsetLimit]

theorem new_application_visible_witness :
    ∃ e : JobApplicationResponse,
      (GetJobApplications exEnv ⟨exJobParam, noQuery, 1, 0, 10⟩
        (ApplyForJob exEnv ⟨exJobParam, noQuery, 3, 21, 9⟩
          (some ⟨"https://x.example/resume.pdf", ""⟩) ⟨exStore.users, exStore.jobs, []⟩).1).2 =
        okPage "Applications retrieved successfully" (Payload.jobApplications [e]) 1 10 1 ∧
      e.Status = StatusApplied ∧ e.ResumeLink = "https://x.example/resume.pdf" :=
  new_application_visible exEnv ⟨exJobParam, noQuery, 3, 21, 9⟩ ⟨exJobParam, noQuery, 1, 0, 10⟩
    ⟨"https://x.example/resume.pdf", ""⟩ ⟨exStore.users, exStore.jobs, []⟩ 10 exJob
    (by decide) (by decide) (by decide) (by decide) (by decide) (by decide) (by decide)
    (by decide)

/-- C12. A status change is reflected in the applicant's view: after the
owner of the target job sets application `a` of applicant `X` to a status `st`
among the five values (answer 200), the listing of `X` that
`GetMyApplications` pages through contains the entry of `a` with status `st`,
and it is the listing before the update with only the status of that entry
replaced; accordingly every `GetMyApplications` request of `X` returns, after
the update, the page it returned before with that one replacement and the same
page number, page size and `total_size`, and a request whose page holds all of
the applications of `X` returns the entry of `a` with status `st`. The
applications of the store have distinct primary keys. -/
theorem status_change_in_applicant_view (env : Env) (c : Ctx) (s : Store) (appUUID : UUID)
    (a : Application) (j : Job) (st : ApplicationStatus)
    (hk : s.applicationKeysUnique)
    (hid : env.uuidParse c.id = some appUUID)
    (ha : s.firstApplication appUUID = some a)
    (hj : s.firstJob a.JobID = some j)
    (hown : c.user_id = j.CreatedBy)
    (hst : st ∈ validStatuses) :
    (UpdateApplicationStatus env c (some ⟨st⟩) s).2.status = 200 ∧
    (⟨a.ID, j.Title, (s.preloadUser j.CreatedBy).Name, st, a.AppliedAt⟩ : MyApplicationResponse) ∈
      (UpdateApplicationStatus env c (some ⟨st⟩) s).1.myApplications a.ApplicantID ∧
    (UpdateApplicationStatus env c (some ⟨st⟩) s).1.myApplications a.ApplicantID =
      (s.myApplications a.ApplicantID).map (setEntryStatus a.ID st) ∧
    (∀ c2 : Ctx, c2.user_id = a.ApplicantID →
      GetMyApplications c2 s =
        (s, okPage "Applications retrieved successfully"
          (Payload.myApplications
            (offsetLimit (paging c2).offset (paging c2).pageSize
              (s.myApplications a.ApplicantID)))
          (paging c2).page (paging c2).pageSize ((s.myApplications a.ApplicantID).length : Int)) ∧
      (GetMyApplications c2 (UpdateApplicationStatus env c (some ⟨st⟩) s).1).2 =
        okPage "Applications retrieved successfully"
          (Payload.myApplications
            ((offsetLimit (paging c2).offset (paging c2).pageSize
              (s.myApplications a.ApplicantID)).map (setEntryStatus a.ID st)))
          (paging c2).page (paging c2).pageSize
          ((s.myApplications a.ApplicantID).length : Int)) ∧
    (∀ c2 : Ctx, c2.user_id = a.ApplicantID → (paging c2).offset ≤ 0 →
      ((s.myApplications a.ApplicantID).length : Int) ≤ (paging c2).pageSize →
      ∃ entries,
        (GetMyApplications c2 (UpdateApplicationStatus env c (some ⟨st⟩) s).1).2.Object =
          Payload.myApplications entries ∧
        (⟨a.ID, j.Title, (s.preloadUser j.CreatedBy).Name, st, a.AppliedAt⟩ :
          MyApplicationResponse) ∈ entries) := by
  have hmem : a ∈ s.applications := (firstApplication_key s appUUID a ha).2
  have hpre : (s.preloadJob a.JobID).CreatedBy = c.user_id := by
    simp [Store.preloadJob, hj, hown]
  have hlist := saveApplication_myApplications s c.now a st a.ApplicantID hk hmem
  rw [UpdateApplicationStatus_owner env c s appUUID a st hid ha hpre hst]
  have hentry : (⟨a.ID, j.Title, (s.preloadUser j.CreatedBy).Name, st, a.AppliedAt⟩ :
      MyApplicationResponse) ∈ (s.myApplications a.ApplicantID).map (setEntryStatus a.ID st) := by
    have h1 : s.myApplicationEntry a ∈ s.myApplications a.ApplicantID := by
      unfold Store.myApplications
      exact List.mem_map_of_mem _ (List.mem_filter.mpr ⟨hmem, by simp⟩)
    have h2 := List.mem_map_of_mem (setEntryStatus a.ID st) h1
    have h3 : setEntryStatus a.ID st (s.myApplicationEntry a) =
        ⟨a.ID, j.Title, (s.preloadUser j.CreatedBy).Name, st, a.AppliedAt⟩ := by
      simp [setEntryStatus, Store.myApplicationEntry, hj]
    rw [h3] at h2
    exact h2
  refine ⟨rfl, ?_, hlist, ?_, ?_⟩
  · simp only [hlist]
    exact hentry
  · intro c2 hc2
    rw [GetMyApplications_pages, GetMyApplications_pages, hc2]
    simp only [hlist, offsetLimit_map, List.length_map]
    constructor <;> trivial
  · intro c2 hc2 hoff hsize
    rw [GetMyApplications_pages, hc2]
    simp only [hlist]
    rw [offsetLimit_all _ _ _ hoff (by rw [List.length_map]; exact hsize)]
    exact ⟨_, rfl, hentry⟩

theorem status_change_in_applicant_view_witness :
    (⟨20, "Backend Engineer", "Acme", "Interview", 5⟩ : MyApplicationResponse) ∈
      (UpdateApplicationStatus exEnv ⟨exApplicationParam, noQuery, 1, 30, 9⟩
        (some ⟨"Interview"⟩) exStore).1.myApplications 3 :=
  (status_change_in_applicant_view exEnv ⟨exApplicationParam, noQuery, 1, 30, 9⟩ exStore 20
    exApplication exJob "Interview" (by decide) (by decide) (by decide) (by decide) (by decide)
    (by decide)).2.1

/-- C14, as stated, fails for the page size, and for an integer beyond the
range of `int`: a `page_size` of 0 or of -3 gives the effective and reported
page size 10, not `max(page_size, 1) = 1`, and a `page` of 9223372036854775808
gives the effective page 9223372036854775807. -/
theorem page_size_below_one_is_ten :
    (Atoi "0").1 = 0 ∧ (Atoi "-3").1 = -3 ∧
    (paging ⟨"", pageQuery "1" "0", 3, 0, 0⟩).pageSize = 10 ∧
    (paging ⟨"", pageQuery "1" "-3", 3, 0, 0⟩).pageSize = 10 ∧
    (paging ⟨"", pageQuery "1" "0", 3, 0, 0⟩).pageSize ≠ max 0 1 ∧
    (BrowseJobs exEnv ⟨"", pageQuery "1" "0", 3, 0, 0⟩ exStore).2.page = some ⟨1, 10, 1⟩ ∧
    (GetMyJobs ⟨"", pageQuery "1" "0", 1, 0, 0⟩ exStore).2.page = some ⟨1, 10, 1⟩ ∧
    (GetMyApplications ⟨"", pageQuery "1" "-3", 3, 0, 0⟩ exStore).2.page = some ⟨1, 10, 1⟩ ∧
    numeralValue [] "9223372036854775808".toList = 9223372036854775808 ∧
    (paging ⟨"", pageQuery "9223372036854775808" "10", 3, 0, 0⟩).page = 9223372036854775807 ∧
    (paging ⟨"", pageQuery "9223372036854775808" "10", 3, 0, 0⟩).page ≠
      max (numeralValue [] "9223372036854775808".toList) 1 := by
  refine ⟨by decide, by decide, by decide, by decide, by decide, by decide, by decide, by decide,
    by decide, by decide, by decide⟩

/-- C14, amended. For every integer supplied as `page` or `page_size`, written as
a decimal numeral with an optional sign: when the integer is below `2^63`, the
effective page is `max(page, 1)` and the effective page size is `page_size`
when `page_size >= 1` and the default 10 otherwise, so a `page_size` of 0 or of
a negative value is replaced by 10; an integer of `2^63` or more is replaced by
`2^63 - 1`. In terms of the value `n` that `strconv.Atoi` returns for any
supplied string the effective page is `max(n, 1)` and the effective page size
is `n` when `n >= 1` and 10 otherwise. `BrowseJobs`, `GetMyJobs` and
`GetMyApplications` report the two effective values. -/
theorem paging_floor (env : Env) (c : Ctx) (s : Store) :
    (∀ (sign ds : List Char), (sign = [] ∨ sign = ['+'] ∨ sign = ['-']) → ds ≠ [] →
      (∀ ch ∈ ds, isDecimal ch = true) →
      (c.query "page" = some (String.mk (sign ++ ds)) →
        (numeralValue sign ds < 2 ^ 63 → (paging c).page = max (numeralValue sign ds) 1) ∧
        (2 ^ 63 ≤ numeralValue sign ds → (paging c).page = 2 ^ 63 - 1)) ∧
      (c.query "page_size" = some (String.mk (sign ++ ds)) →
        (numeralValue sign ds < 2 ^ 63 →
          (paging c).pageSize =
            if numeralValue sign ds < 1 then 10 else numeralValue sign ds) ∧
        (2 ^ 63 ≤ numeralValue sign ds → (paging c).pageSize = 2 ^ 63 - 1))) ∧
    (∀ (v : String) (n : Int) (e : Option NumError),
      c.query "page" = some v → Atoi v = (n, e) → (paging c).page = max n 1) ∧
    (∀ (v : String) (n : Int) (e : Option NumError),
      c.query "page_size" = some v → Atoi v = (n, e) →
        (paging c).pageSize = if n < 1 then 10 else n) ∧
    (∃ total, (BrowseJobs env c s).2.page =
      some ⟨(paging c).page, (paging c).pageSize, total⟩) ∧
    (∃ total, (GetMyJobs c s).2.page = some ⟨(paging c).page, (paging c).pageSize, total⟩) ∧
    (∃ total, (GetMyApplications c s).2.page =
      some ⟨(paging c).page, (paging c).pageSize, total⟩) := by
  refine ⟨?_, paging_page_eq c, paging_pageSize_eq c, ⟨_, rfl⟩, ⟨_, rfl⟩, ⟨_, rfl⟩⟩
  intro sign ds hs hne hd
  have hA := Atoi_numeral sign ds hs hne hd
  constructor
  · intro hq
    have hp := paging_page_eq c _ _ _ hq (Prod.mk.eta (p := Atoi (String.mk (sign ++ ds)))).symm
    rw [hA] at hp
    constructor
    · intro hlt; rw [hp]; omega
    · intro hge; rw [hp]; omega
  · intro hq
    have hp := paging_pageSize_eq c _ _ _ hq
      (Prod.mk.eta (p := Atoi (String.mk (sign ++ ds)))).symm
    rw [hA] at hp
    constructor
    · intro hlt; rw [hp]; split_ifs <;> omega
    · intro hge; rw [hp]; split_ifs <;> omega

theorem paging_floor_witness :
    (paging ⟨"", pageQuery "-4" "0", 3, 0, 0⟩).page = max (numeralValue ['-'] ['4']) 1 ∧
    (paging ⟨"", pageQuery "-4" "0", 3, 0, 0⟩).pageSize =
      (if numeralValue [] ['0'] < 1 then 10 else numeralValue [] ['0']) ∧
    (paging ⟨"", pageQuery "6" "+25", 3, 0, 0⟩).pageSize =
      (if numeralValue ['+'] ['2', '5'] < 1 then 10 else numeralValue ['+'] ['2', '5']) :=
  have h := (paging_floor exEnv ⟨"", pageQuery "-4" "0", 3, 0, 0⟩ exStore).1
  have h2 := (paging_floor exEnv ⟨"", pageQuery "6" "+25", 3, 0, 0⟩ exStore).1
  ⟨((h ['-'] ['4'] (by decide) (by decide) (by decide)).1 (by decide)).1 (by decide),
   ((h [] ['0'] (by decide) (by decide) (by decide)).2 (by decide)).1 (by decide),
   ((h2 ['+'] ['2', '5'] (by decide) (by decide) (by decide)).2 (by decide)).1 (by decide)⟩

/-- C15. The browse filters are `LIKE` patterns, not literal substrings: the
title filter `_` selects the example job, whose title has no underscore, and
`total_size` is 1; the location filter `r%e` and the company filter `a%e` select
it although neither the location nor the company name contains a `%`. -/
theorem browse_filter_wildcards :
    '_' ∉ exJob.Title.toList ∧ '_' ∉ (exEnv.sqlLower exJob.Title).toList ∧
    browseQuery exEnv "_" "" "" exStore = [exJob] ∧
    (BrowseJobs exEnv ⟨"", filterQuery "_" "" "", 3, 0, 0⟩ exStore).2 =
      okPage "Jobs retrieved successfully" (Payload.jobs [⟨exJob, exCompany1⟩]) 1 10 1 ∧
    '%' ∉ exJob.Location.toList ∧
    browseQuery exEnv "" "r%e" "" exStore = [exJob] ∧
    '%' ∉ exCompany1.Name.toList ∧
    browseQuery exEnv "" "" "a%e" exStore = [exJob] := by
  refine ⟨by decide, by decide, by decide, by decide, by decide, by decide, by decide, by decide⟩

/-- C16. The row offset is neither non-negative nor the exact product for a
large page: `page=99999999999999999999` is saturated to `2^63 - 1`, the product
with the page size 10 is 92233720368547758060, and the offset the four listing
handlers compute is -20; the rows returned are those of page 1 while the
response reports page number 9223372036854775807. -/
theorem offset_wraps_for_large_page :
    (Atoi "99999999999999999999").1 = 2 ^ 63 - 1 ∧
    (paging ⟨"", pageQuery "99999999999999999999" "10", 3, 0, 0⟩).page = 9223372036854775807 ∧
    (paging ⟨"", pageQuery "99999999999999999999" "10", 3, 0, 0⟩).pageSize = 10 ∧
    (paging ⟨"", pageQuery "99999999999999999999" "10", 3, 0, 0⟩).offset = -20 ∧
    ((9223372036854775807 : Int) - 1) * 10 = 92233720368547758060 ∧
    (BrowseJobs exEnv ⟨"", pageQuery "99999999999999999999" "10", 3, 0, 0⟩ exStore).2 =
      okPage "Jobs retrieved successfully" (Payload.jobs [⟨exJob, exCompany1⟩])
        9223372036854775807 10 1 ∧
    (BrowseJobs exEnv ⟨"", pageQuery "1" "10", 3, 0, 0⟩ exStore).2 =
      okPage "Jobs retrieved successfully" (Payload.jobs [⟨exJob, exCompany1⟩]) 1 10 1 ∧
    (GetMyJobs ⟨"", pageQuery "99999999999999999999" "10", 1, 0, 0⟩ exStore).2 =
      okPage "Jobs retrieved successfully" (Payload.jobs [⟨exJob, User.zero⟩])
        9223372036854775807 10 1 ∧
    (GetMyApplications ⟨"", pageQuery "99999999999999999999" "10", 3, 0, 0⟩ exStore).2 =
      okPage "Applications retrieved successfully"
        (Payload.myApplications [⟨20, "Backend Engineer", "Acme", "Applied", 5⟩])
        9223372036854775807 10 1 ∧
    (GetJobApplications exEnv ⟨exJobParam, pageQuery "99999999999999999999" "10", 1, 0, 0⟩
        exStore).2 =
      okPage "Applications retrieved successfully"
        (Payload.jobApplications
          [⟨20, "Xavier", "https://x.example/resume.pdf", "", "Applied", 5⟩])
        9223372036854775807 10 1 := by
  refine ⟨by decide, by decide, by decide, by decide, by decide, by decide, by decide, by decide,
    by decide, by decide⟩

end JobApi
